import Mathlib

/-!
Verification development for the rlox tree-walking Lox interpreter.

The Rust sources are shallowly embedded:
* `TokenType`, `Token` mirror `src/syntax/token.rs`;
* the AST mirrors `src/syntax/ast.rs` (plus the `super` expression and the
  class `superclass` field, which the checked-in `ast.rs` predates but
  `resolver.rs` and `interpreter.rs` use);
* runtime values mirror `src/syntax/literal.rs`; `Rc<RefCell<...>>` cells
  (environments, instances) are modelled as addresses into explicit heaps;
* `Environment` and its operations mirror `src/environment.rs` twice: once as
  a pure inductive chain (the shape of the linked `enclosing` structure, used
  for the lookup-semantics theorems) and once as heap-indexed operations used
  by the evaluator, where sharing and mutation matter;
* the evaluator mirrors `src/interpreter.rs`, the resolver `src/resolver.rs`,
  the parser `src/syntax/parser.rs`, and the CLI dispatch `src/main.rs`.

IEEE doubles are abstracted as `F64` (a NaN marker plus exact rationals):
equality comparisons keep the IEEE property that NaN is unequal to everything
including itself; rounding and infinities are not modelled and no theorem
below depends on them.
-/

namespace Rlox

/-- Mirror of `TokenType` from `src/syntax/token.rs`. -/
inductive TokenType where
  | LEFT_PAREN | RIGHT_PAREN | LEFT_BRACE | RIGHT_BRACE
  | COMMA | DOT | MINUS | PLUS | SEMICOLON | SLASH | STAR
  | BANG | BANG_EQUAL | EQUAL | EQUAL_EQUAL
  | GREATER | GREATER_EQUAL | LESS | LESS_EQUAL
  | IDENTIFIER | STRING | NUMBER
  | AND | CLASS | ELSE | FALSE | FUN | FOR | IF | NIL | OR
  | PRINT | RETURN | SUPER | THIS | TRUE | VAR | WHILE
  | EOF
  deriving DecidableEq, Repr

/-- Abstraction of Rust `f64`: a NaN marker or an exact numeric value.
Rounding and signed infinities are not modelled. -/
inductive F64 where
  | nan
  | num (q : Rat)
  deriving DecidableEq, Repr

namespace F64

/-- IEEE `==` on doubles: NaN is unequal to everything (including NaN);
numeric values compare by value. -/
def beq : F64 → F64 → Bool
  | num a, num b => a == b
  | _, _ => false

def add : F64 → F64 → F64
  | num a, num b => num (a + b)
  | _, _ => nan

def sub : F64 → F64 → F64
  | num a, num b => num (a - b)
  | _, _ => nan

def mul : F64 → F64 → F64
  | num a, num b => num (a * b)
  | _, _ => nan

/-- Division; division by zero is collapsed to NaN (IEEE would give an
infinity, which this model does not represent). -/
def div : F64 → F64 → F64
  | num a, num b => if b = 0 then nan else num (a / b)
  | _, _ => nan

def lt : F64 → F64 → Bool
  | num a, num b => a < b
  | _, _ => false

def le : F64 → F64 → Bool
  | num a, num b => a ≤ b
  | _, _ => false

def gt : F64 → F64 → Bool
  | num a, num b => b < a
  | _, _ => false

def ge : F64 → F64 → Bool
  | num a, num b => b ≤ a
  | _, _ => false

def neg : F64 → F64
  | num a => num (-a)
  | nan => nan

end F64

mutual

/-- Mirror of `Token` from `src/syntax/token.rs`: kind, lexeme, optional
literal payload, 1-based line. -/
inductive Token where
  | mk (tokenType : TokenType) (lexeme : String) (literal : Option Literal) (line : Nat)

/-- Mirror of the runtime value enum `Literal` from `src/syntax/literal.rs`.
`Instance(Rc<RefCell<Instance>>)` is modelled as an address `inst addr` into
the instance heap carried by the interpreter state. -/
inductive Literal where
  | number (n : F64)
  | str (s : String)
  | boolean (b : Bool)
  | callable (f : Function)
  | nil
  | inst (addr : Nat)

/-- Mirror of the `Function` enum from `src/syntax/literal.rs` in the form
`interpreter.rs` uses it: user function, native, or class. -/
inductive Function where
  | function (f : Func)
  | native (n : NativeFunc)
  | klass (c : Class)

/-- Mirror of `Func`: declaration handle, closure environment
(`EnvironmentRef`, modelled as an address into the environment heap), and the
`is_initializer` flag used by `interpreter.rs`. -/
inductive Func where
  | mk (decl : FnStmt) (closure : Nat) (is_initializer : Bool)

/-- Mirror of `NativeFunc`. The `func: fn() -> Literal` pointer is modelled by
an opaque numeric identifier `func_id`; Rust compares such pointers by
address, which `func_id` equality reflects. -/
inductive NativeFunc where
  | mk (name : String) (func_id : Nat) (arity : Nat)

/-- Mirror of `Class` in the form `interpreter.rs` constructs it
(`Class::new(name, method_table, superclass)`): name, method table, optional
superclass. -/
inductive Class where
  | mk (name : String) (methods : List (String × Literal)) (superclass : Option Class)

/-- Mirror of `Expr` from `src/syntax/ast.rs`. The `Variable`, `Assign`,
`This` and `Super` node structs are flattened into constructor arguments; the
`dist : Cell<Option<usize>>` resolution cell of each such node becomes an
`Option Nat` field (the resolver returns a re-annotated tree instead of
mutating cells). The `super` node is modelled from the spec (the checked-in
`ast.rs` predates it): a keyword token, a method token, and a resolution
distance, as used by `resolver.rs` and `interpreter.rs`. -/
inductive Expr where
  | assign (name : Token) (value : Expr) (dist : Option Nat)
  | binary (lhs : Expr) (op : Token) (rhs : Expr)
  | grouping (e : Expr)
  | literal (v : Literal)
  | unary (op : Token) (e : Expr)
  | variable (name : Token) (dist : Option Nat)
  | logical (lhs : Expr) (op : Token) (rhs : Expr)
  | call (callee : Expr) (paren : Token) (args : List Expr)
  | get (obj : Expr) (name : Token)
  | set (obj : Expr) (name : Token) (value : Expr)
  | thisE (keyword : Token) (dist : Option Nat)
  | superE (keyword : Token) (method : Token) (dist : Option Nat)

/-- Mirror of `Stmt` from `src/syntax/ast.rs`. -/
inductive Stmt where
  | expression (e : Expr)
  | print (e : Expr)
  | var (name : Token) (init : Option Expr)
  | block (stmts : List Stmt)
  | ifStmt (cond : Expr) (thenS : Stmt) (elseS : Option Stmt)
  | whileStmt (cond : Expr) (body : Stmt)
  | function (f : FnStmt)
  | ret (keyword : Token) (value : Option Expr)
  | classStmt (c : ClassStmt)

/-- Mirror of `FnStmt`: name token, parameter tokens, body statements. -/
inductive FnStmt where
  | mk (name : Token) (params : List Token) (body : List Stmt)

/-- Mirror of `ClassStmt` in the form `parser.rs`/`resolver.rs` use it: name,
methods, optional superclass expression. -/
inductive ClassStmt where
  | mk (name : Token) (methods : List FnStmt) (superclass : Option Expr)

end

namespace Token

def tokenType : Token → TokenType
  | .mk t _ _ _ => t

def lexeme : Token → String
  | .mk _ l _ _ => l

def literal : Token → Option Literal
  | .mk _ _ p _ => p

def line : Token → Nat
  | .mk _ _ _ n => n

end Token

namespace FnStmt

def name : FnStmt → Token
  | .mk n _ _ => n

def params : FnStmt → List Token
  | .mk _ p _ => p

def body : FnStmt → List Stmt
  | .mk _ _ b => b

end FnStmt

namespace Func

def decl : Func → FnStmt
  | .mk d _ _ => d

def closure : Func → Nat
  | .mk _ c _ => c

def is_initializer : Func → Bool
  | .mk _ _ i => i

end Func

namespace Class

def name : Class → String
  | .mk n _ _ => n

def methods : Class → List (String × Literal)
  | .mk _ m _ => m

def superclass : Class → Option Class
  | .mk _ _ s => s

end Class

/-- First-match lookup in an association list, mirroring `FxHashMap::get`
(the interpreter's maps are maintained with replacing inserts, so keys are
unique). -/
def alookup {α : Type} (m : List (String × α)) (k : String) : Option α :=
  match m with
  | [] => none
  | (k', v) :: rest => if k' = k then some v else alookup rest k

/-- Replacing insert, mirroring `FxHashMap::insert`. -/
def ainsert {α : Type} (m : List (String × α)) (k : String) (v : α) :
    List (String × α) :=
  match m with
  | [] => [(k, v)]
  | (k', v') :: rest => if k' = k then (k, v) :: rest else (k', v') :: ainsert rest k v

/-- Mirror of `Literal::is_truthy` from `src/syntax/literal.rs`: only `Nil`
and `false` are falsy. -/
def Literal.is_truthy : Literal → Bool
  | .nil => false
  | .boolean b => b
  | _ => true

/-- Mirror of `Class::get_method`. Modelled from the spec: the checked-in
`literal.rs` predates superclass support; the spec says method lookup on a
class walks superclasses ("find method m on the superclass (walking further
up if necessary)"). -/
def Class.get_method : Class → String → Option Literal
  | .mk _ methods sup, name =>
    match alookup methods name with
    | some m => some m
    | none =>
      match sup with
      | some s => s.get_method name
      | none => none

/-! ## Environments: pure chain model of `src/environment.rs`

`Environment` in Rust is `{ values: FxHashMap<String, Literal>, enclosing:
Option<Rc<RefCell<Environment>>> }`. For the read/write lookup semantics of
`get`, `assign`, `ancestor`, `get_at`, `assign_at` the `Rc<RefCell<_>>`
indirection is irrelevant, so this model represents the enclosing chain
directly as a nested inductive; the heap-indexed version used by the
evaluator (where sharing matters) appears further below. -/

/-- Mirror of `EnvironmentError` from `src/environment.rs`. -/
inductive EnvironmentError where
  | UndefinedVariable (t : Token)
  | InvalidEnvironmentDistance

/-- The environment chain: a map of values plus an optional enclosing
environment. -/
inductive Environment where
  | mk (values : List (String × Literal)) (enclosing : Option Environment)

namespace Environment

def values : Environment → List (String × Literal)
  | .mk v _ => v

def enclosing : Environment → Option Environment
  | .mk _ e => e

/-- Mirror of `Environment::define`: a replacing insert. -/
def define (env : Environment) (name : String) (v : Literal) : Environment :=
  .mk (ainsert env.values name v) env.enclosing

/-- Mirror of `Environment::get`: look in this map, else in the enclosing
chain; a failure of the inner lookup is replaced by `UndefinedVariable(name)`
(the `or_else ... ok_or_else` shape of the Rust code). -/
def get : Environment → Token → Except EnvironmentError Literal
  | .mk vals enc, name =>
    match alookup vals name.lexeme with
    | some v => .ok v
    | none =>
      match enc with
      | some e =>
        match e.get name with
        | .ok v => .ok v
        | .error _ => .error (.UndefinedVariable name)
      | none => .error (.UndefinedVariable name)

/-- Mirror of `Environment::assign`: update the binding here if present, else
try the enclosing chain; never creates a binding. Mutation becomes a rebuilt
chain. -/
def assign : Environment → Token → Literal → Except EnvironmentError Environment
  | .mk vals enc, name, v =>
    match alookup vals name.lexeme with
    | some _ => .ok (.mk (ainsert vals name.lexeme v) enc)
    | none =>
      match enc with
      | some e =>
        match e.assign name v with
        | .ok e' => .ok (.mk vals (some e'))
        | .error _ => .error (.UndefinedVariable name)
      | none => .error (.UndefinedVariable name)

/-- Mirror of `Environment::ancestor`: walk `distance` `enclosing` hops;
running out of chain gives `InvalidEnvironmentDistance`. -/
def ancestor : Environment → Nat → Except EnvironmentError Environment
  | env, 0 => .ok env
  | .mk _ enc, d + 1 =>
    match enc with
    | some e => e.ancestor d
    | none => .error .InvalidEnvironmentDistance

/-- Mirror of `Environment::get_at`: `ancestor` then `get`; an ancestor
failure is reported as `InvalidEnvironmentDistance`. -/
def get_at (env : Environment) (distance : Nat) (name : Token) :
    Except EnvironmentError Literal :=
  match env.ancestor distance with
  | .error _ => .error .InvalidEnvironmentDistance
  | .ok e => e.get name

/-- Mirror of `Environment::assign_at`: `ancestor_mut` then `assign`; mutation
through the chain becomes a rebuild along the walked hops. -/
def assign_at : Environment → Nat → Token → Literal →
    Except EnvironmentError Environment
  | env, 0, name, v => env.assign name v
  | .mk vals enc, d + 1, name, v =>
    match enc with
    | none => .error .InvalidEnvironmentDistance
    | some e =>
      match e.assign_at d name v with
      | .ok e' => .ok (.mk vals (some e'))
      | .error err => .error err

/-- Number of ancestors of an environment (length of the enclosing chain). -/
def depth : Environment → Nat
  | .mk _ none => 0
  | .mk _ (some e) => e.depth + 1

/-- Specification-level lookup: the value of `name` in the nearest environment
of the chain (this one included) that binds it. -/
def chainLookup : Environment → String → Option Literal
  | .mk vals enc, k =>
    match alookup vals k with
    | some v => some v
    | none =>
      match enc with
      | some e => e.chainLookup k
      | none => none

/-- Specification-level assignment: rewrite the binding of `name` in the
nearest environment of the chain that binds it; `none` when unbound. -/
def chainAssign : Environment → String → Literal → Option Environment
  | .mk vals enc, k, v =>
    match alookup vals k with
    | some _ => some (.mk (ainsert vals k v) enc)
    | none =>
      match enc with
      | some e =>
        match e.chainAssign k v with
        | some e' => some (.mk vals (some e'))
        | none => none
      | none => none

/-- Specification-level `assign_at`: walk `d` hops, then `chainAssign` from
there outward, rebuilding the walked prefix unchanged. -/
def chainAssignAt : Environment → Nat → String → Literal → Option Environment
  | env, 0, k, v => env.chainAssign k v
  | .mk vals enc, d + 1, k, v =>
    match enc with
    | none => none
    | some e =>
      match e.chainAssignAt d k v with
      | some e' => some (.mk vals (some e'))
      | none => none

end Environment

/-- Mirror of `Interpreter::look_up_variable` from `src/interpreter.rs`,
expressed over the pure chain model: a recorded distance fetches via
`get_at` on the current environment, no distance looks up in the globals. -/
def look_up_variable (environment global : Environment) (dist : Option Nat)
    (name : Token) : Except EnvironmentError Literal :=
  match dist with
  | some d => environment.get_at d name
  | none => global.get name

/-- Concrete three-environment chain used to witness C10: the innermost and
middle environments are empty, the outermost binds `a`. -/
def c10outer : Environment := .mk [("a", Literal.nil)] none

def c10mid : Environment := .mk [] (some c10outer)

def c10env : Environment := .mk [] (some c10mid)

def c10tok : Token := .mk .IDENTIFIER "a" none 1

/-! ## Heaps and interpreter state

`Rc<RefCell<Environment>>` and `Rc<RefCell<Instance>>` cells are modelled as
append-only heaps indexed by address; a `Literal.inst a` or a closure address
is the identity of the underlying heap record. -/

/-- The contents of an `Instance` record: its class and mutable field table. -/
structure InstRec where
  klass : Class
  fields : List (String × Literal)

/-- The contents of an `Environment` cell: value table plus the address of the
optional enclosing environment. -/
structure EnvRec where
  values : List (String × Literal)
  enclosing : Option Nat

/-- Mirror of the `Interpreter` state from `src/interpreter.rs` plus the two
heaps realising the `Rc<RefCell<_>>` graphs and the stream of values printed
so far (the observable effect of `print`; the textual `Display` formatting is
not modelled). The `locals` map of the Rust struct is populated but never
read (lookups go through the `dist` cells set by the resolver), so it is
omitted. -/
structure InterpState where
  envs : List EnvRec
  insts : List InstRec
  global : Nat
  environment : Nat
  output : List Literal

/-- Mirror of `ResolverError` from `src/resolver.rs`. Note the absence of any
`InvalidSuper` variant. -/
inductive ResolverError where
  | NotInitialized (t : Token)
  | AlreadyDeclared (t : Token)
  | ReturnFromTopLevel (t : Token)
  | InvalidThis (t : Token)
  | ReturnFromInitializer (line : Nat)
  | InheritFromSelf (t : Token)

/-- Mirror of `VisitorError` from `src/syntax/visitor.rs` (including the
`VistorError` typo), plus `SuperclassMustBeAClass` which `interpreter.rs`
constructs, `Unreachable` standing for Rust `unreachable!()` panics, and
`OutOfFuel`, an artifact of the fuel-bounded embedding (Rust would keep
running where the model reports `OutOfFuel`). -/
inductive VisitorError where
  | VistorError
  | NotCallable (t : Token)
  | ArityNotMatched (expected got : Nat) (t : Token)
  | ArithmeticError (t : Token)
  | UnknownOperator (t : Token) (kind : String)
  | UnaryTypeError (t : Token)
  | UndefinedVariable (t : Token)
  | ReturnValue (v : Literal)
  | NotInitialized (t : Token)
  | Variable (e : EnvironmentError)
  | Resolver (e : ResolverError)
  | UndefinedProperty (t : Token) (s : String)
  | SuperclassMustBeAClass (line : Nat)
  | Unreachable
  | OutOfFuel

/-! ## Structural value equality (derived `PartialEq`)

`visit_binary` compares values with `l == r`. On `Literal` this is the
*derived* `PartialEq`: `Rc<T>`/`RefCell<T>` compare their contents, `Cell<T>`
its contents, `f64` by IEEE comparison, `FxHashMap` as an unordered map, and
`Func` by its custom `impl PartialEq` (`src/syntax/literal.rs` lines 14-18)
which compares only `decl`. Dereferencing an instance pointer re-enters the
instance heap, so the comparison is fuel-bounded; `none` means the fuel ran
out (Rust would recurse without bound on such cyclic structures). -/

/-- Short-circuit conjunction on fuel-bounded Booleans (Rust `&&`). -/
def pand : Option Bool → Option Bool → Option Bool
  | some true, b => b
  | some false, _ => some false
  | none, _ => none

mutual

/-- Derived `PartialEq` for `Literal`: cross-variant comparison is `false`. -/
def eqLiteral (h : List InstRec) : Nat → Literal → Literal → Option Bool
  | 0, _, _ => none
  | _ + 1, .number a, .number b => some (F64.beq a b)
  | _ + 1, .str a, .str b => some (a == b)
  | _ + 1, .boolean a, .boolean b => some (a == b)
  | n + 1, .callable a, .callable b => eqFunction h n a b
  | _ + 1, .nil, .nil => some true
  | n + 1, .inst a, .inst b =>
    match h[a]?, h[b]? with
    | some ra, some rb => eqInstRec h n ra rb
    | _, _ => none
  | _ + 1, _, _ => some false
termination_by structural n0 _ _ => n0

/-- Derived `PartialEq` for the `Function` enum. -/
def eqFunction (h : List InstRec) : Nat → Function → Function → Option Bool
  | 0, _, _ => none
  | n + 1, .function a, .function b => eqFunc h n a b
  | _ + 1, .native (.mk na fa aa), .native (.mk nb fb ab) =>
    some (na == nb && fa == fb && aa == ab)
  | n + 1, .klass a, .klass b => eqClass h n a b
  | _ + 1, _, _ => some false
termination_by structural n0 _ _ => n0

/-- The custom `impl PartialEq for Func`: `self.decl == other.decl` — the
closure and `is_initializer` fields are ignored. -/
def eqFunc (h : List InstRec) : Nat → Func → Func → Option Bool
  | 0, _, _ => none
  | n + 1, .mk d1 _ _, .mk d2 _ _ => eqFnStmt h n d1 d2
termination_by structural n0 _ _ => n0

def eqClass (h : List InstRec) : Nat → Class → Class → Option Bool
  | 0, _, _ => none
  | n + 1, .mk n1 m1 s1, .mk n2 m2 s2 =>
    pand (some (n1 == n2)) (pand (eqMap h n m1 m2) (eqClassOpt h n s1 s2))
termination_by structural n0 _ _ => n0

def eqClassOpt (h : List InstRec) : Nat → Option Class → Option Class → Option Bool
  | 0, _, _ => none
  | _ + 1, none, none => some true
  | n + 1, some a, some b => eqClass h n a b
  | _ + 1, _, _ => some false
termination_by structural n0 _ _ => n0

/-- `FxHashMap` equality: same size and every key of the left map is present
in the right with an equal value. -/
def eqMap (h : List InstRec) :
    Nat → List (String × Literal) → List (String × Literal) → Option Bool
  | 0, _, _ => none
  | n + 1, m1, m2 =>
    if m1.length = m2.length then eqMapGo h n m1 m2 else some false
termination_by structural n0 _ _ => n0

def eqMapGo (h : List InstRec) :
    Nat → List (String × Literal) → List (String × Literal) → Option Bool
  | 0, _, _ => none
  | _ + 1, [], _ => some true
  | n + 1, (k, v) :: rest, m2 =>
    match alookup m2 k with
    | some w => pand (eqLiteral h n v w) (eqMapGo h n rest m2)
    | none => some false
termination_by structural n0 _ _ => n0

/-- Derived `PartialEq` for `Instance`: class and field table, structurally. -/
def eqInstRec (h : List InstRec) : Nat → InstRec → InstRec → Option Bool
  | 0, _, _ => none
  | n + 1, r1, r2 => pand (eqClass h n r1.klass r2.klass) (eqMap h n r1.fields r2.fields)
termination_by structural n0 _ _ => n0

/-- Derived `PartialEq` for `Token` (kind, lexeme, literal payload, line). -/
def eqToken (h : List InstRec) : Nat → Token → Token → Option Bool
  | 0, _, _ => none
  | n + 1, .mk t1 l1 p1 n1, .mk t2 l2 p2 n2 =>
    pand (some (decide (t1 = t2) && l1 == l2 && n1 == n2)) (eqLitOpt h n p1 p2)
termination_by structural n0 _ _ => n0

def eqLitOpt (h : List InstRec) : Nat → Option Literal → Option Literal → Option Bool
  | 0, _, _ => none
  | _ + 1, none, none => some true
  | n + 1, some a, some b => eqLiteral h n a b
  | _ + 1, _, _ => some false
termination_by structural n0 _ _ => n0

def eqTokenList (h : List InstRec) : Nat → List Token → List Token → Option Bool
  | 0, _, _ => none
  | _ + 1, [], [] => some true
  | n + 1, a :: as_, b :: bs => pand (eqToken h n a b) (eqTokenList h n as_ bs)
  | _ + 1, _, _ => some false
termination_by structural n0 _ _ => n0

def eqFnStmt (h : List InstRec) : Nat → FnStmt → FnStmt → Option Bool
  | 0, _, _ => none
  | n + 1, .mk n1 p1 b1, .mk n2 p2 b2 =>
    pand (eqToken h n n1 n2) (pand (eqTokenList h n p1 p2) (eqStmtList h n b1 b2))
termination_by structural n0 _ _ => n0

def eqFnStmtList (h : List InstRec) : Nat → List FnStmt → List FnStmt → Option Bool
  | 0, _, _ => none
  | _ + 1, [], [] => some true
  | n + 1, a :: as_, b :: bs => pand (eqFnStmt h n a b) (eqFnStmtList h n as_ bs)
  | _ + 1, _, _ => some false
termination_by structural n0 _ _ => n0

/-- Derived `PartialEq` for `Expr`; the resolution `dist` cells compare by
contents. -/
def eqExpr (h : List InstRec) : Nat → Expr → Expr → Option Bool
  | 0, _, _ => none
  | n + 1, .assign t1 v1 d1, .assign t2 v2 d2 =>
    pand (eqToken h n t1 t2) (pand (eqExpr h n v1 v2) (some (d1 == d2)))
  | n + 1, .binary l1 o1 r1, .binary l2 o2 r2 =>
    pand (eqExpr h n l1 l2) (pand (eqToken h n o1 o2) (eqExpr h n r1 r2))
  | n + 1, .grouping a, .grouping b => eqExpr h n a b
  | n + 1, .literal a, .literal b => eqLiteral h n a b
  | n + 1, .unary o1 a, .unary o2 b => pand (eqToken h n o1 o2) (eqExpr h n a b)
  | n + 1, .variable t1 d1, .variable t2 d2 =>
    pand (eqToken h n t1 t2) (some (d1 == d2))
  | n + 1, .logical l1 o1 r1, .logical l2 o2 r2 =>
    pand (eqExpr h n l1 l2) (pand (eqToken h n o1 o2) (eqExpr h n r1 r2))
  | n + 1, .call c1 p1 a1, .call c2 p2 a2 =>
    pand (eqExpr h n c1 c2) (pand (eqToken h n p1 p2) (eqExprList h n a1 a2))
  | n + 1, .get o1 t1, .get o2 t2 => pand (eqExpr h n o1 o2) (eqToken h n t1 t2)
  | n + 1, .set o1 t1 v1, .set o2 t2 v2 =>
    pand (eqExpr h n o1 o2) (pand (eqToken h n t1 t2) (eqExpr h n v1 v2))
  | n + 1, .thisE t1 d1, .thisE t2 d2 =>
    pand (eqToken h n t1 t2) (some (d1 == d2))
  | n + 1, .superE k1 m1 d1, .superE k2 m2 d2 =>
    pand (eqToken h n k1 k2) (pand (eqToken h n m1 m2) (some (d1 == d2)))
  | _ + 1, _, _ => some false
termination_by structural n0 _ _ => n0

def eqExprOpt (h : List InstRec) : Nat → Option Expr → Option Expr → Option Bool
  | 0, _, _ => none
  | _ + 1, none, none => some true
  | n + 1, some a, some b => eqExpr h n a b
  | _ + 1, _, _ => some false
termination_by structural n0 _ _ => n0

def eqExprList (h : List InstRec) : Nat → List Expr → List Expr → Option Bool
  | 0, _, _ => none
  | _ + 1, [], [] => some true
  | n + 1, a :: as_, b :: bs => pand (eqExpr h n a b) (eqExprList h n as_ bs)
  | _ + 1, _, _ => some false
termination_by structural n0 _ _ => n0

/-- Derived `PartialEq` for `Stmt`. -/
def eqStmt (h : List InstRec) : Nat → Stmt → Stmt → Option Bool
  | 0, _, _ => none
  | n + 1, .expression a, .expression b => eqExpr h n a b
  | n + 1, .print a, .print b => eqExpr h n a b
  | n + 1, .var t1 i1, .var t2 i2 => pand (eqToken h n t1 t2) (eqExprOpt h n i1 i2)
  | n + 1, .block a, .block b => eqStmtList h n a b
  | n + 1, .ifStmt c1 t1 e1, .ifStmt c2 t2 e2 =>
    pand (eqExpr h n c1 c2) (pand (eqStmt h n t1 t2) (eqStmtOpt h n e1 e2))
  | n + 1, .whileStmt c1 b1, .whileStmt c2 b2 =>
    pand (eqExpr h n c1 c2) (eqStmt h n b1 b2)
  | n + 1, .function a, .function b => eqFnStmt h n a b
  | n + 1, .ret t1 v1, .ret t2 v2 => pand (eqToken h n t1 t2) (eqExprOpt h n v1 v2)
  | n + 1, .classStmt (.mk n1 m1 s1), .classStmt (.mk n2 m2 s2) =>
    pand (eqToken h n n1 n2)
      (pand (eqFnStmtList h n m1 m2) (eqExprOpt h n s1 s2))
  | _ + 1, _, _ => some false
termination_by structural n0 _ _ => n0

def eqStmtOpt (h : List InstRec) : Nat → Option Stmt → Option Stmt → Option Bool
  | 0, _, _ => none
  | _ + 1, none, none => some true
  | n + 1, some a, some b => eqStmt h n a b
  | _ + 1, _, _ => some false
termination_by structural n0 _ _ => n0

def eqStmtList (h : List InstRec) : Nat → List Stmt → List Stmt → Option Bool
  | 0, _, _ => none
  | _ + 1, [], [] => some true
  | n + 1, a :: as_, b :: bs => pand (eqStmt h n a b) (eqStmtList h n as_ bs)
  | _ + 1, _, _ => some false
termination_by structural n0 _ _ => n0

end

/-! ## Heap-indexed environment operations

The same `src/environment.rs` operations, this time through the
`Rc<RefCell<Environment>>` indirection: environments are heap records and the
enclosing pointer is an address. The chain walk is fuel-bounded (`none` means
the fuel ran out; the evaluator maps that to `OutOfFuel`). A dangling address
cannot arise from `Rc` and also yields `none`. -/

def InterpState.envAt (st : InterpState) (a : Nat) : Option EnvRec :=
  st.envs[a]?

def InterpState.setEnvAt (st : InterpState) (a : Nat) (r : EnvRec) : InterpState :=
  { st with envs := st.envs.set a r }

/-- Mirror of `Environment::define` on the heap: replacing insert into the
value table of the environment at address `a`. -/
def envDefineH (st : InterpState) (a : Nat) (name : String) (v : Literal) :
    InterpState :=
  match st.envAt a with
  | some r => st.setEnvAt a { r with values := ainsert r.values name v }
  | none => st

/-- Mirror of `Environment::get` on the heap. -/
def envGetH (st : InterpState) : Nat → Nat → Token →
    Option (Except EnvironmentError Literal)
  | 0, _, _ => none
  | fuel + 1, a, name =>
    match st.envAt a with
    | none => none
    | some r =>
      match alookup r.values name.lexeme with
      | some v => some (.ok v)
      | none =>
        match r.enclosing with
        | some b =>
          match envGetH st fuel b name with
          | some (.ok v) => some (.ok v)
          | some (.error _) => some (.error (.UndefinedVariable name))
          | none => none
        | none => some (.error (.UndefinedVariable name))

/-- Mirror of `Environment::assign` on the heap. -/
def envAssignH (st : InterpState) : Nat → Nat → Token → Literal →
    Option (Except EnvironmentError InterpState)
  | 0, _, _, _ => none
  | fuel + 1, a, name, v =>
    match st.envAt a with
    | none => none
    | some r =>
      match alookup r.values name.lexeme with
      | some _ =>
        some (.ok (st.setEnvAt a { r with values := ainsert r.values name.lexeme v }))
      | none =>
        match r.enclosing with
        | some b =>
          match envAssignH st fuel b name v with
          | some (.ok st') => some (.ok st')
          | some (.error _) => some (.error (.UndefinedVariable name))
          | none => none
        | none => some (.error (.UndefinedVariable name))

/-- Mirror of `Environment::ancestor` on the heap: resolve the address
`distance` hops up. -/
def envAncestorH (st : InterpState) : Nat → Nat → Nat →
    Option (Except EnvironmentError Nat)
  | 0, _, _ => none
  | _ + 1, a, 0 => some (.ok a)
  | fuel + 1, a, d + 1 =>
    match st.envAt a with
    | none => none
    | some r =>
      match r.enclosing with
      | some b => envAncestorH st fuel b d
      | none => some (.error .InvalidEnvironmentDistance)

/-- Mirror of `Environment::get_at` on the heap. -/
def envGetAtH (st : InterpState) (fuel : Nat) (a : Nat) (d : Nat) (name : Token) :
    Option (Except EnvironmentError Literal) :=
  match envAncestorH st fuel a d with
  | none => none
  | some (.error _) => some (.error .InvalidEnvironmentDistance)
  | some (.ok b) => envGetH st fuel b name

/-- Mirror of `Environment::assign_at` on the heap. -/
def envAssignAtH (st : InterpState) (fuel : Nat) (a : Nat) (d : Nat)
    (name : Token) (v : Literal) : Option (Except EnvironmentError InterpState) :=
  match envAncestorH st fuel a d with
  | none => none
  | some (.error _) => some (.error .InvalidEnvironmentDistance)
  | some (.ok b) => envAssignH st fuel b name v

/-! ## The evaluator (`src/interpreter.rs`) -/

/-- Evaluation result: value or error, each carrying the interpreter state
(Rust mutates `self`; the `ReturnValue` error is intercepted by `call` with
the mutated state still live). -/
inductive IResult (α : Type) where
  | ok (a : α) (st : InterpState)
  | err (e : VisitorError) (st : InterpState)

/-- The `this` token the interpreter constructs inline (in
`RloxCallable::call` and `visit_super`). -/
def thisTok (line : Nat) : Token := .mk .THIS "this" none line

/-- Running a native function. The only native, `clock`, reads the wall
clock, which is outside this model; its result is abstracted to `nil`,
and nothing proved below depends on it. -/
def NativeFunc.run : NativeFunc → Literal
  | _ => .nil

/-- Mirror of `Func::bind` (`src/syntax/literal.rs`): a fresh environment
enclosing the closure, with `this` defined to the receiver. Modelled from the
spec for the flag: the checked-in `literal.rs` predates `is_initializer`, and
the spec's `init` semantics (and the passing `test_init3`) require the bound
method to keep the flag. -/
def bindFunc (st : InterpState) (f : Func) (instAddr : Nat) : Func × InterpState :=
  let addr := st.envs.length
  (Func.mk f.decl addr f.is_initializer,
   { st with envs := st.envs ++ [⟨[("this", Literal.inst instAddr)], some f.closure⟩] })

/-- Mirror of `RloxCallable::arity`. In Rust the class case recursively takes
the arity of the `init` entry; method tables built by `visit_class` contain
only user functions, so one level of lookup is faithful (a non-callable entry
would be an `unreachable!()` panic in Rust, modelled as arity 0). -/
def Function.arity : Function → Nat
  | .function f => f.decl.params.length
  | .native (.mk _ _ a) => a
  | .klass c =>
    match c.get_method "init" with
    | some (.callable (.function f)) => f.decl.params.length
    | some (.callable (.native (.mk _ _ a))) => a
    | _ => 0

/-- Result of `Instance::get` (`src/syntax/literal.rs`): a value (fields
first, then a method bound to the receiver), a missing property, or an
`unreachable!()` panic (non-function entry in a method table). -/
inductive GetRes where
  | found (v : Literal) (st : InterpState)
  | missing
  | panic

/-- Mirror of `Instance::get`. -/
def instance_get (st : InterpState) (name : Token) (a : Nat) : GetRes :=
  match st.insts[a]? with
  | none => .panic
  | some r =>
    match alookup r.fields name.lexeme with
    | some v => .found v st
    | none =>
      match r.klass.get_method name.lexeme with
      | some (.callable (.function m)) =>
        let (m', st') := bindFunc st m a
        .found (.callable (.function m')) st'
      | some _ => .panic
      | none => .missing

/-- Mirror of `Instance::set`: insert into the field table. -/
def instance_set (st : InterpState) (a : Nat) (name : String) (v : Literal) :
    InterpState :=
  match st.insts[a]? with
  | some r => { st with insts := st.insts.set a { r with fields := ainsert r.fields name v } }
  | none => st

/-- Mirror of `Interpreter::look_up_variable` on the heap state: a recorded
distance fetches via `get_at` from the current environment, otherwise the
name is looked up in the globals. -/
def look_up_variable_h (fuel : Nat) (st : InterpState) (dist : Option Nat)
    (name : Token) : IResult Literal :=
  match dist with
  | some d =>
    match envGetAtH st fuel st.environment d name with
    | some (.ok v) => .ok v st
    | some (.error e) => .err (.Variable e) st
    | none => .err .OutOfFuel st
  | none =>
    match envGetH st fuel st.global name with
    | some (.ok v) => .ok v st
    | some (.error e) => .err (.Variable e) st
    | none => .err .OutOfFuel st

/-- The body of `visit_class` after the superclass evaluation: define the
name to `Nil`, optionally push the (empty) superclass scope, build the method
table with closures over the current environment and `is_initializer` set for
`init`, pop the scope, then `assign` the finished class. Note the pushed
scope never defines `super` (the Rust code omits that `define`). -/
def classTail (n : Nat) (st : InterpState) (name : Token) (methods : List FnStmt)
    (superclass : Option Class) : IResult Unit :=
  let st1 := envDefineH st st.environment name.lexeme .nil
  let pushed := superclass.isSome
  let st2 :=
    if pushed then
      { st1 with envs := st1.envs ++ [⟨[], some st1.environment⟩],
                 environment := st1.envs.length }
    else st1
  let table := methods.foldl (fun acc m =>
    ainsert acc m.name.lexeme
      (.callable (.function (Func.mk m st2.environment (m.name.lexeme == "init"))))) []
  let klassV : Literal := .callable (.klass (Class.mk name.lexeme table superclass))
  let st3 :=
    if pushed then
      match (st2.envAt st2.environment).bind EnvRec.enclosing with
      | some parent => { st2 with environment := parent }
      | none => st2
    else st2
  match envAssignH st3 n st3.environment name klassV with
  | some (.ok st4) => .ok () st4
  | some (.error e) => .err (.Variable e) st3
  | none => .err .OutOfFuel st3

mutual

/-- Mirror of `Interpreter::evaluate` / the `ExprVisitor` impl. -/
def evalExpr : Nat → InterpState → Expr → IResult Literal
  | 0, st, _ => .err .OutOfFuel st
  | _ + 1, st, .literal v => .ok v st
  | n + 1, st, .grouping e => evalExpr n st e
  | n + 1, st, .unary op e =>
    match evalExpr n st e with
    | .err er st' => .err er st'
    | .ok v st' =>
      match op.tokenType with
      | .MINUS =>
        match v with
        | .number m => .ok (.number m.neg) st'
        | _ => .err .VistorError st'
      | .BANG => .ok (.boolean (! v.is_truthy)) st'
      | _ => .err (.UnknownOperator op "unary") st'
  | n + 1, st, .binary e1 op e2 =>
    match evalExpr n st e1 with
    | .err er st' => .err er st'
    | .ok l st1 =>
      match evalExpr n st1 e2 with
      | .err er st' => .err er st'
      | .ok r st2 =>
        match op.tokenType with
        | .PLUS =>
          match l, r with
          | .number a, .number b => .ok (.number (a.add b)) st2
          | _, _ => .err (.ArithmeticError op) st2
        | .MINUS =>
          match l, r with
          | .number a, .number b => .ok (.number (a.sub b)) st2
          | _, _ => .err (.ArithmeticError op) st2
        | .STAR =>
          match l, r with
          | .number a, .number b => .ok (.number (a.mul b)) st2
          | _, _ => .err (.ArithmeticError op) st2
        | .SLASH =>
          match l, r with
          | .number a, .number b => .ok (.number (a.div b)) st2
          | _, _ => .err (.ArithmeticError op) st2
        | .GREATER =>
          match l, r with
          | .number a, .number b => .ok (.boolean (a.gt b)) st2
          | _, _ => .err (.ArithmeticError op) st2
        | .GREATER_EQUAL =>
          match l, r with
          | .number a, .number b => .ok (.boolean (a.ge b)) st2
          | _, _ => .err (.ArithmeticError op) st2
        | .LESS =>
          match l, r with
          | .number a, .number b => .ok (.boolean (a.lt b)) st2
          | _, _ => .err (.ArithmeticError op) st2
        | .LESS_EQUAL =>
          match l, r with
          | .number a, .number b => .ok (.boolean (a.le b)) st2
          | _, _ => .err (.ArithmeticError op) st2
        | .BANG_EQUAL =>
          match eqLiteral st2.insts n l r with
          | some b => .ok (.boolean (! b)) st2
          | none => .err .OutOfFuel st2
        | .EQUAL_EQUAL =>
          match eqLiteral st2.insts n l r with
          | some b => .ok (.boolean b) st2
          | none => .err .OutOfFuel st2
        | _ => .err (.UnknownOperator op "binary") st2
  | n + 1, st, .variable name dist => look_up_variable_h n st dist name
  | n + 1, st, .thisE keyword dist => look_up_variable_h n st dist keyword
  | n + 1, st, .assign name value dist =>
    match evalExpr n st value with
    | .err er st' => .err er st'
    | .ok v st1 =>
      match dist with
      | none =>
        match envAssignH st1 n st1.global name v with
        | some (.ok st2) => .ok v st2
        | some (.error e) => .err (.Variable e) st1
        | none => .err .OutOfFuel st1
      | some d =>
        match envAssignAtH st1 n st1.environment d name v with
        | some (.ok st2) => .ok v st2
        | some (.error e) => .err (.Variable e) st1
        | none => .err .OutOfFuel st1
  | n + 1, st, .logical lhs op rhs =>
    match evalExpr n st lhs with
    | .err er st' => .err er st'
    | .ok l st1 =>
      match op.tokenType with
      | .OR => if l.is_truthy then .ok l st1 else evalExpr n st1 rhs
      | .AND => if ! l.is_truthy then .ok l st1 else evalExpr n st1 rhs
      | _ => .err (.UnknownOperator op "logical") st1
  | n + 1, st, .call callee paren args =>
    match evalExpr n st callee with
    | .err er st' => .err er st'
    | .ok c st1 =>
      match evalArgs n st1 args with
      | .err er st' => .err er st'
      | .ok argv st2 =>
        match c with
        | .callable f =>
          if argv.length ≠ f.arity then
            .err (.ArityNotMatched f.arity argv.length paren) st2
          else
            callFunction n st2 f argv
        | _ => .err .VistorError st2
  | n + 1, st, .get obj name =>
    match evalExpr n st obj with
    | .err er st' => .err er st'
    | .ok v st1 =>
      match v with
      | .inst a =>
        match instance_get st1 name a with
        | .found w st2 => .ok w st2
        | .missing => .err (.UndefinedProperty name name.lexeme) st1
        | .panic => .err .Unreachable st1
      | _ => .err .VistorError st1
  | n + 1, st, .set obj name value =>
    match evalExpr n st obj with
    | .err er st' => .err er st'
    | .ok o st1 =>
      match o with
      | .inst a =>
        match evalExpr n st1 value with
        | .err er st' => .err er st'
        | .ok v st2 => .ok v (instance_set st2 a name.lexeme v)
      | _ => .err .VistorError st1
  | n + 1, st, .superE keyword method dist =>
    match dist with
    | none => .err (.Variable .InvalidEnvironmentDistance) st
    | some d =>
      match envGetAtH st n st.environment d keyword with
      | none => .err .OutOfFuel st
      | some (.error e) => .err (.Variable e) st
      | some (.ok sv) =>
        match sv with
        | .callable (.klass sc) =>
          match envGetAtH st n st.environment (d - 1) (thisTok keyword.line) with
          | none => .err .OutOfFuel st
          | some (.error e) => .err (.Variable e) st
          | some (.ok ov) =>
            match ov with
            | .inst a =>
              match sc.get_method method.lexeme with
              | some (.callable (.function m)) =>
                let (m', st') := bindFunc st m a
                .ok (.callable (.function m')) st'
              | some _ => .err .Unreachable st
              | none => .err (.UndefinedProperty method method.lexeme) st
            | _ => .err .Unreachable st
        | _ => .err .Unreachable st
termination_by structural n0 _ _ => n0

/-- Left-to-right evaluation of call arguments (the loop in `visit_call`). -/
def evalArgs : Nat → InterpState → List Expr → IResult (List Literal)
  | 0, st, _ => .err .OutOfFuel st
  | _ + 1, st, [] => .ok [] st
  | n + 1, st, e :: rest =>
    match evalExpr n st e with
    | .err er st' => .err er st'
    | .ok v st1 =>
      match evalArgs n st1 rest with
      | .err er st' => .err er st'
      | .ok vs st2 => .ok (v :: vs) st2
termination_by structural n0 _ _ => n0

/-- Mirror of `Interpreter::execute` / the `StmtVisitor` impl. -/
def execStmt : Nat → InterpState → Stmt → IResult Unit
  | 0, st, _ => .err .OutOfFuel st
  | n + 1, st, .expression e =>
    match evalExpr n st e with
    | .err er st' => .err er st'
    | .ok _ st1 => .ok () st1
  | n + 1, st, .print e =>
    match evalExpr n st e with
    | .err er st' => .err er st'
    | .ok v st1 => .ok () { st1 with output := st1.output ++ [v] }
  | n + 1, st, .var name init =>
    match init with
    | some e =>
      match evalExpr n st e with
      | .err er st' => .err er st'
      | .ok v st1 => .ok () (envDefineH st1 st1.environment name.lexeme v)
    | none => .ok () (envDefineH st st.environment name.lexeme .nil)
  | n + 1, st, .block stmts =>
    execute_block n st stmts ⟨[], some st.environment⟩
  | n + 1, st, .ifStmt cond thenS elseS =>
    match evalExpr n st cond with
    | .err er st' => .err er st'
    | .ok v st1 =>
      if v.is_truthy then execStmt n st1 thenS
      else
        match elseS with
        | some s => execStmt n st1 s
        | none => .ok () st1
  | n + 1, st, .whileStmt cond body => execWhile n st cond body
  | _ + 1, st, .function f =>
    .ok () (envDefineH st st.environment f.name.lexeme
      (.callable (.function (Func.mk f st.environment false))))
  | n + 1, st, .ret _ value =>
    match value with
    | some e =>
      match evalExpr n st e with
      | .err er st' => .err er st'
      | .ok v st1 => .err (.ReturnValue v) st1
    | none => .err (.ReturnValue .nil) st
  | n + 1, st, .classStmt (.mk name methods superE) =>
    match superE with
    | some se =>
      match evalExpr n st se with
      | .err er st' => .err er st'
      | .ok sv st1 =>
        match sv with
        | .callable (.klass s) => classTail n st1 name methods (some s)
        | _ => .err (.SuperclassMustBeAClass name.line) st1
    | none => classTail n st name methods none
termination_by structural n0 _ _ => n0

/-- The `while` loop of `visit_while`, fuel-bounded. -/
def execWhile : Nat → InterpState → Expr → Stmt → IResult Unit
  | 0, st, _, _ => .err .OutOfFuel st
  | n + 1, st, cond, body =>
    match evalExpr n st cond with
    | .err er st' => .err er st'
    | .ok v st1 =>
      if v.is_truthy then
        match execStmt n st1 body with
        | .err er st' => .err er st'
        | .ok _ st2 => execWhile n st2 cond body
      else .ok () st1
termination_by structural n0 _ _ _ => n0

/-- Mirror of `Interpreter::execute_block`: install the fresh block
environment, run the statements, and restore the previous environment on
every exit path. -/
def execute_block : Nat → InterpState → List Stmt → EnvRec → IResult Unit
  | 0, st, _, _ => .err .OutOfFuel st
  | n + 1, st, stmts, blockEnv =>
    let prev := st.environment
    let st1 := { st with envs := st.envs ++ [blockEnv], environment := st.envs.length }
    match execStmts n st1 stmts with
    | .ok _ st2 => .ok () { st2 with environment := prev }
    | .err e st2 => .err e { st2 with environment := prev }
termination_by structural n0 _ _ _ => n0

/-- The statement loop of `execute_block`: stop at the first error. -/
def execStmts : Nat → InterpState → List Stmt → IResult Unit
  | 0, st, _ => .err .OutOfFuel st
  | _ + 1, st, [] => .ok () st
  | n + 1, st, s :: rest =>
    match execStmt n st s with
    | .err er st' => .err er st'
    | .ok _ st1 => execStmts n st1 rest
termination_by structural n0 _ _ => n0

/-- Mirror of `RloxCallable::call`. -/
def callFunction : Nat → InterpState → Function → List Literal → IResult Literal
  | 0, st, _, _ => .err .OutOfFuel st
  | n + 1, st, .function f, args =>
    let funcEnv : EnvRec :=
      ⟨(f.decl.params.zip args).foldl (fun acc pa => ainsert acc pa.1.lexeme pa.2) [],
       some f.closure⟩
    (match execute_block n st f.decl.body funcEnv with
     | .ok _ st' =>
       if f.is_initializer then
         match envGetAtH st' n f.closure 0 (thisTok f.decl.name.line) with
         | some (.ok v) => .ok v st'
         | some (.error e) => .err (.Variable e) st'
         | none => .err .OutOfFuel st'
       else .ok .nil st'
     | .err (.ReturnValue v) st' =>
       if f.is_initializer then
         match envGetAtH st' n f.closure 0 (thisTok f.decl.name.line) with
         | some (.ok w) => .ok w st'
         | some (.error e) => .err (.Variable e) st'
         | none => .err .OutOfFuel st'
       else .ok v st'
     | .err e st' => .err e st')
  | _ + 1, st, .native nf, _ => .ok nf.run st
  | n + 1, st, .klass c, args =>
    let addr := st.insts.length
    let st1 := { st with insts := st.insts ++ [⟨c, []⟩] }
    match c.get_method "init" with
    | some (.callable (.function init)) =>
      let (b, st2) := bindFunc st1 init addr
      (match callFunction n st2 (.function b) args with
       | .ok _ st3 => .ok (.inst addr) st3
       | .err e st3 => .err e st3)
    | _ => .ok (.inst addr) st1
termination_by structural n0 _ _ _ => n0

end

/-- Mirror of `Interpreter::interpret`: run the statements, stopping at (and
reporting) the first runtime error. -/
def interpret (n : Nat) (st : InterpState) (stmts : List Stmt) :
    InterpState × Option VisitorError :=
  match execStmts n st stmts with
  | .ok _ st' => (st', none)
  | .err e st' => (st', some e)

/-- Mirror of `Interpreter::default`: a single global environment with the
`clock` native pre-installed. -/
def initState : InterpState :=
  { envs := [⟨[("clock", .callable (.native (.mk "clock" 0 0)))], none⟩],
    insts := [], global := 0, environment := 0, output := [] }

/-! ## The resolver (`src/resolver.rs`)

The static pass. The Rust resolver mutates the `dist` cells of the AST; the
model returns a re-annotated AST instead. -/

/-- Mirror of the resolver's `FunctionType`. -/
inductive FunctionType where
  | none | function | method | initializer
  deriving DecidableEq

/-- Mirror of the resolver's `ClassType`. Note there is no `Subclass`
variant. -/
inductive ClassType where
  | none | klass
  deriving DecidableEq

/-- Mirror of the `Resolver` state: scope stack (head = innermost scope; each
scope maps a name to its "defined" flag), current function type, current
class type. -/
structure RState where
  scopes : List (List (String × Bool))
  cur_func : FunctionType
  cur_class : ClassType

/-- Resolver outcome: success with state, a `ResolverError`, a Rust panic
(`unreachable!()`), or fuel exhaustion (artifact of the embedding). -/
inductive RRes (α : Type) where
  | ok (a : α) (st : RState)
  | err (e : ResolverError)
  | panic
  | fuel

/-- Mirror of `Resolver::resolve_local`: walk the scope stack from the
innermost scope outward; the first scope containing the name gives the
distance. -/
def resolve_local_dist (scopes : List (List (String × Bool))) (k : String) :
    Option Nat :=
  match scopes with
  | [] => none
  | s :: rest =>
    if (alookup s k).isSome then some 0
    else (resolve_local_dist rest k).map (· + 1)

/-- The new `dist` cell contents after `resolve_local`: set on a hit, left
unchanged otherwise. -/
def resolvedDist (st : RState) (k : String) (old : Option Nat) : Option Nat :=
  match resolve_local_dist st.scopes k with
  | some d => some d
  | none => old

/-- Mirror of `Resolver::declare`. -/
def rDeclare (st : RState) (name : Token) : Except ResolverError RState :=
  match st.scopes with
  | [] => .ok st
  | s :: rest =>
    match alookup s name.lexeme with
    | some _ => .error (.AlreadyDeclared name)
    | none => .ok { st with scopes := ainsert s name.lexeme false :: rest }

/-- Mirror of `Resolver::define`. -/
def rDefine (st : RState) (name : Token) : RState :=
  match st.scopes with
  | [] => st
  | s :: rest => { st with scopes := ainsert s name.lexeme true :: rest }

def beginScope (st : RState) : RState := { st with scopes := [] :: st.scopes }

def endScope (st : RState) : RState := { st with scopes := st.scopes.tail }

/-- The parameter loop of `resolve_function`: declare and define each. -/
def declareParams (st : RState) : List Token → Except ResolverError RState
  | [] => .ok st
  | p :: rest =>
    match rDeclare st p with
    | .error e => .error e
    | .ok st1 => declareParams (rDefine st1 p) rest

mutual

/-- Mirror of the resolver's `ExprVisitor` impl. -/
def resolveExpr : Nat → RState → Expr → RRes Expr
  | 0, _, _ => .fuel
  | n + 1, st, .assign name value dist =>
    match resolveExpr n st value with
    | .ok value' st1 => .ok (.assign name value' (resolvedDist st1 name.lexeme dist)) st1
    | .err e => .err e
    | .panic => .panic
    | .fuel => .fuel
  | n + 1, st, .binary e1 op e2 =>
    match resolveExpr n st e1 with
    | .ok e1' st1 =>
      match resolveExpr n st1 e2 with
      | .ok e2' st2 => .ok (.binary e1' op e2') st2
      | r => r
    | .err e => .err e
    | .panic => .panic
    | .fuel => .fuel
  | n + 1, st, .grouping e =>
    match resolveExpr n st e with
    | .ok e' st1 => .ok (.grouping e') st1
    | r => r
  | _ + 1, st, .literal v => .ok (.literal v) st
  | n + 1, st, .unary op e =>
    match resolveExpr n st e with
    | .ok e' st1 => .ok (.unary op e') st1
    | r => r
  | _ + 1, st, .variable name dist =>
    match st.scopes with
    | s :: _ =>
      if alookup s name.lexeme = some false then .err (.NotInitialized name)
      else .ok (.variable name (resolvedDist st name.lexeme dist)) st
    | [] => .ok (.variable name (resolvedDist st name.lexeme dist)) st
  | n + 1, st, .logical e1 op e2 =>
    match resolveExpr n st e1 with
    | .ok e1' st1 =>
      match resolveExpr n st1 e2 with
      | .ok e2' st2 => .ok (.logical e1' op e2') st2
      | r => r
    | .err e => .err e
    | .panic => .panic
    | .fuel => .fuel
  | n + 1, st, .call callee paren args =>
    match resolveExpr n st callee with
    | .ok callee' st1 =>
      match resolveExprs n st1 args with
      | .ok args' st2 => .ok (.call callee' paren args') st2
      | .err e => .err e
      | .panic => .panic
      | .fuel => .fuel
    | .err e => .err e
    | .panic => .panic
    | .fuel => .fuel
  | n + 1, st, .get obj name =>
    match resolveExpr n st obj with
    | .ok obj' st1 => .ok (.get obj' name) st1
    | r => r
  | n + 1, st, .set obj name value =>
    match resolveExpr n st value with
    | .ok value' st1 =>
      match resolveExpr n st1 obj with
      | .ok obj' st2 => .ok (.set obj' name value') st2
      | r => r
    | .err e => .err e
    | .panic => .panic
    | .fuel => .fuel
  | _ + 1, st, .thisE keyword dist =>
    if st.cur_class = .none then .err (.InvalidThis keyword)
    else .ok (.thisE keyword (resolvedDist st keyword.lexeme dist)) st
  | _ + 1, st, .superE keyword method dist =>
    .ok (.superE keyword method (resolvedDist st keyword.lexeme dist)) st
termination_by structural n0 _ _ => n0

def resolveExprs : Nat → RState → List Expr → RRes (List Expr)
  | 0, _, _ => .fuel
  | _ + 1, st, [] => .ok [] st
  | n + 1, st, e :: rest =>
    match resolveExpr n st e with
    | .ok e' st1 =>
      match resolveExprs n st1 rest with
      | .ok rest' st2 => .ok (e' :: rest') st2
      | r => r
    | .err e2 => .err e2
    | .panic => .panic
    | .fuel => .fuel
termination_by structural n0 _ _ => n0

/-- Mirror of the resolver's `StmtVisitor` impl. -/
def resolveStmt : Nat → RState → Stmt → RRes Stmt
  | 0, _, _ => .fuel
  | n + 1, st, .expression e =>
    match resolveExpr n st e with
    | .ok e' st1 => .ok (.expression e') st1
    | .err er => .err er
    | .panic => .panic
    | .fuel => .fuel
  | n + 1, st, .print e =>
    match resolveExpr n st e with
    | .ok e' st1 => .ok (.print e') st1
    | .err er => .err er
    | .panic => .panic
    | .fuel => .fuel
  | n + 1, st, .var name init =>
    match rDeclare st name with
    | .error e => .err e
    | .ok st1 =>
      match init with
      | some e =>
        match resolveExpr n st1 e with
        | .ok e' st2 => .ok (.var name (some e')) (rDefine st2 name)
        | .err er => .err er
        | .panic => .panic
        | .fuel => .fuel
      | none => .ok (.var name none) (rDefine st1 name)
  | n + 1, st, .block stmts =>
    match resolveStmts n (beginScope st) stmts with
    | .ok stmts' st1 => .ok (.block stmts') (endScope st1)
    | .err e => .err e
    | .panic => .panic
    | .fuel => .fuel
  | n + 1, st, .ifStmt cond thenS elseS =>
    match resolveExpr n st cond with
    | .ok cond' st1 =>
      match resolveStmt n st1 thenS with
      | .ok then' st2 =>
        match elseS with
        | some s =>
          match resolveStmt n st2 s with
          | .ok s' st3 => .ok (.ifStmt cond' then' (some s')) st3
          | r => r
        | none => .ok (.ifStmt cond' then' none) st2
      | r => r
    | .err e => .err e
    | .panic => .panic
    | .fuel => .fuel
  | n + 1, st, .whileStmt cond body =>
    match resolveExpr n st cond with
    | .ok cond' st1 =>
      match resolveStmt n st1 body with
      | .ok body' st2 => .ok (.whileStmt cond' body') st2
      | r => r
    | .err e => .err e
    | .panic => .panic
    | .fuel => .fuel
  | n + 1, st, .function f =>
    match rDeclare st f.name with
    | .error e => .err e
    | .ok st1 =>
      match resolve_function n (rDefine st1 f.name) f .function with
      | .ok f' st2 => .ok (.function f') st2
      | .err e => .err e
      | .panic => .panic
      | .fuel => .fuel
  | n + 1, st, .ret keyword value =>
    if st.cur_func = .none then .err (.ReturnFromTopLevel keyword)
    else
      match value with
      | some e =>
        if st.cur_func = .initializer then .err (.ReturnFromInitializer keyword.line)
        else
          match resolveExpr n st e with
          | .ok e' st1 => .ok (.ret keyword (some e')) st1
          | .err er => .err er
          | .panic => .panic
          | .fuel => .fuel
      | none => .ok (.ret keyword none) st
  | n + 1, st, .classStmt (.mk name methods superclass) =>
    let enclosing := st.cur_class
    let st0 := { st with cur_class := .klass }
    match rDeclare st0 name with
    | .error e => .err e
    | .ok st1 =>
      let st2 := rDefine st1 name
      match superclass with
      | some se =>
        match se with
        | .variable vtok vdist =>
          if vtok.lexeme = name.lexeme then .err (.InheritFromSelf name)
          else
            match resolveExpr n st2 (.variable vtok vdist) with
            | .ok se' st3 =>
              let st4 := { st3 with scopes := [("super", true)] :: st3.scopes }
              classMethodsTail n st4 name methods (some se') enclosing true
            | .err e => .err e
            | .panic => .panic
            | .fuel => .fuel
        | _ => .panic
      | none => classMethodsTail n st2 name methods none enclosing false
termination_by structural n0 _ _ => n0

/-- The tail of `visit_class`: push the `this` scope, resolve each method
(with `Initializer` for `init`), pop the scopes, restore the class type. -/
def classMethodsTail : Nat → RState → Token → List FnStmt → Option Expr →
    ClassType → Bool → RRes Stmt
  | 0, _, _, _, _, _, _ => .fuel
  | n + 1, st, name, methods, superclass, enclosing, hasSuper =>
    let st1 := { st with scopes := [("this", true)] :: st.scopes }
    match resolveMethods n st1 methods with
    | .ok methods' st2 =>
      let st3 := endScope st2
      let st4 := if hasSuper then endScope st3 else st3
      .ok (.classStmt (.mk name methods' superclass)) { st4 with cur_class := enclosing }
    | .err e => .err e
    | .panic => .panic
    | .fuel => .fuel
termination_by structural n0 _ _ _ _ _ _ => n0

def resolveMethods : Nat → RState → List FnStmt → RRes (List FnStmt)
  | 0, _, _ => .fuel
  | _ + 1, st, [] => .ok [] st
  | n + 1, st, m :: rest =>
    let ftype : FunctionType :=
      if m.name.lexeme = "init" then .initializer else .method
    match resolve_function n st m ftype with
    | .ok m' st1 =>
      match resolveMethods n st1 rest with
      | .ok rest' st2 => .ok (m' :: rest') st2
      | r => r
    | .err e => .err e
    | .panic => .panic
    | .fuel => .fuel
termination_by structural n0 _ _ => n0

/-- Mirror of `Resolver::resolve_function`. -/
def resolve_function : Nat → RState → FnStmt → FunctionType → RRes FnStmt
  | 0, _, _, _ => .fuel
  | n + 1, st, .mk name params body, ftype =>
    let prev := st.cur_func
    match declareParams { st with cur_func := ftype, scopes := [] :: st.scopes } params with
    | .error e => .err e
    | .ok st1 =>
      match resolveStmts n st1 body with
      | .ok body' st2 =>
        .ok (.mk name params body') { (endScope st2) with cur_func := prev }
      | .err e => .err e
      | .panic => .panic
      | .fuel => .fuel
termination_by structural n0 _ _ _ => n0

def resolveStmts : Nat → RState → List Stmt → RRes (List Stmt)
  | 0, _, _ => .fuel
  | _ + 1, st, [] => .ok [] st
  | n + 1, st, s :: rest =>
    match resolveStmt n st s with
    | .ok s' st1 =>
      match resolveStmts n st1 rest with
      | .ok rest' st2 => .ok (s' :: rest') st2
      | r => r
    | .err e => .err e
    | .panic => .panic
    | .fuel => .fuel
termination_by structural n0 _ _ => n0

end

/-- Mirror of `Resolver::new().resolve(stmts)`: empty scope stack, no current
function or class. -/
def resolveProgram (n : Nat) (stmts : List Stmt) : RRes (List Stmt) :=
  resolveStmts n ⟨[], .none, .none⟩ stmts

/-! ## The parser (`src/syntax/parser.rs`)

Recursive descent over the token slice, fuel-bounded. `Parser { tokens,
current }` gains an `errors` list recording the messages that
`Parser::error` prints to stderr. `POut.panicked` models a Rust panic (the
`unwrap` in `block`, the `unwrap` of a missing literal payload in `primary`,
the `unreachable` in `class_declaration`); `POut.fuelOut` is an artifact of
the fuel bound. -/

structure PState where
  tokens : List Token
  current : Nat
  errors : List String

inductive POut (α : Type) where
  | ok (a : α) (st : PState)
  | err (st : PState)
  | panicked
  | fuelOut

/-- The default token for out-of-range indexing. `tokens[current]` in Rust
would panic out of range, but the scanner always terminates the slice with an
EOF token and the parser never walks past it, so reads never go out of range;
an EOF default keeps the model total with the same reachable behavior. -/
def eofTok : Token := .mk .EOF "" none 0

namespace PState

def peek (st : PState) : Token := st.tokens.getD st.current eofTok

def is_at_end (st : PState) : Bool := st.peek.tokenType == .EOF

def previous (st : PState) : Token := st.tokens.getD (st.current - 1) eofTok

/-- Mirror of `Parser::advance` (the returned reference is `previous`). -/
def advance (st : PState) : PState :=
  if st.is_at_end then st else { st with current := st.current + 1 }

def check (st : PState) (ty : TokenType) : Bool :=
  if st.is_at_end then false else st.peek.tokenType == ty

/-- Mirror of `Parser::error`: record the diagnostic (Rust prints it to
stderr). -/
def report (st : PState) (msg : String) : PState :=
  { st with errors := st.errors ++ [msg] }

end PState

/-- Mirror of the `match_token!` macro: check-then-advance. -/
def matchT (st : PState) (tys : List TokenType) : Bool × PState :=
  if st.is_at_end then (false, st)
  else if tys.contains st.peek.tokenType then (true, st.advance) else (false, st)

/-- Mirror of `Parser::consume`. -/
def pConsume (st : PState) (ty : TokenType) (msg : String) : POut Token :=
  if st.check ty then .ok st.peek st.advance
  else .err (st.report msg)

/-- The statement-boundary token kinds of `Parser::synchronize`. -/
def syncStart : List TokenType :=
  [.CLASS, .FUN, .VAR, .FOR, .IF, .WHILE, .PRINT, .RETURN]

/-- The loop of `Parser::synchronize`: discard tokens until just past a `;`
or just before a declaration/statement keyword (or EOF). The loop advances
the cursor on every iteration and stops at EOF, so `tokens.length + 1`
iterations (supplied by `synchronize`) always reach a boundary; the fuel
pattern only makes the recursion structural. -/
def synchronizeLoop : Nat → PState → PState
  | 0, st => st
  | n + 1, st =>
    if st.is_at_end then st
    else if st.previous.tokenType == .SEMICOLON then st
    else if syncStart.contains st.peek.tokenType then st
    else synchronizeLoop n st.advance

/-- Mirror of `Parser::synchronize`: advance once, then discard to a
statement boundary. -/
def synchronize (st : PState) : PState :=
  synchronizeLoop (st.tokens.length + 1) st.advance

mutual

/-- Mirror of `Parser::primary`. -/
def pPrimary : Nat → PState → POut Expr
  | 0, _ => .fuelOut
  | n + 1, st =>
    let (m, st1) := matchT st [.FALSE]
    if m then .ok (.literal (.boolean false)) st1 else
    let (m, st1) := matchT st [.TRUE]
    if m then .ok (.literal (.boolean true)) st1 else
    let (m, st1) := matchT st [.NIL]
    if m then .ok (.literal .nil) st1 else
    let (m, st1) := matchT st [.NUMBER, .STRING]
    if m then
      match st1.previous.literal with
      | some v => .ok (.literal v) st1
      | none => .panicked
    else
    let (m, st1) := matchT st [.LEFT_PAREN]
    if m then
      match pExpression n st1 with
      | .ok e st2 =>
        match pConsume st2 .RIGHT_PAREN "ecpected ')' after expression" with
        | .ok _ st3 => .ok (.grouping e) st3
        | .err st3 => .err st3
        | .panicked => .panicked
        | .fuelOut => .fuelOut
      | r => r
    else
    let (m, st1) := matchT st [.IDENTIFIER]
    if m then .ok (.variable st1.previous none) st1 else
    let (m, st1) := matchT st [.THIS]
    if m then .ok (.thisE st1.previous none) st1 else
    .err (st.report "expected expression")
termination_by structural n0 _ => n0

/-- The argument loop of `Parser::finish_call`: at 255 accumulated arguments
the parser reports the limit and fails with `ParserError`. -/
def pFinishCallLoop : Nat → PState → List Expr → POut (List Expr)
  | 0, _, _ => .fuelOut
  | n + 1, st, args =>
    if args.length ≥ 255 then .err (st.report "Cannot have more than 255 arguments")
    else
      match pExpression n st with
      | .ok e st1 =>
        let args' := args ++ [e]
        let (m, st2) := matchT st1 [.COMMA]
        if m then pFinishCallLoop n st2 args' else .ok args' st2
      | .err st1 => .err st1
      | .panicked => .panicked
      | .fuelOut => .fuelOut
termination_by structural n0 _ _ => n0

/-- Mirror of `Parser::finish_call`. -/
def pFinishCall : Nat → PState → Expr → POut Expr
  | 0, _, _ => .fuelOut
  | n + 1, st, callee =>
    match (if st.check .RIGHT_PAREN then POut.ok ([] : List Expr) st
           else pFinishCallLoop n st []) with
    | .ok args st1 =>
      match pConsume st1 .RIGHT_PAREN "expected ')' after arguments" with
      | .ok paren st2 => .ok (.call callee paren args) st2
      | .err st2 => .err st2
      | .panicked => .panicked
      | .fuelOut => .fuelOut
    | .err st1 => .err st1
    | .panicked => .panicked
    | .fuelOut => .fuelOut
termination_by structural n0 _ _ => n0

/-- The suffix loop of `Parser::call`. -/
def pCallLoop : Nat → PState → Expr → POut Expr
  | 0, _, _ => .fuelOut
  | n + 1, st, e =>
    let (m, st1) := matchT st [.LEFT_PAREN]
    if m then
      match pFinishCall n st1 e with
      | .ok e' st2 => pCallLoop n st2 e'
      | r => r
    else
      let (m, st1) := matchT st [.DOT]
      if m then
        match pConsume st1 .IDENTIFIER "expected property name after '.'" with
        | .ok name st2 => pCallLoop n st2 (.get e name)
        | .err st2 => .err st2
        | .panicked => .panicked
        | .fuelOut => .fuelOut
      else .ok e st
termination_by structural n0 _ _ => n0

/-- Mirror of `Parser::call`. -/
def pCall : Nat → PState → POut Expr
  | 0, _ => .fuelOut
  | n + 1, st =>
    match pPrimary n st with
    | .ok e st1 => pCallLoop n st1 e
    | r => r
termination_by structural n0 _ => n0

/-- Mirror of `Parser::unary`. -/
def pUnary : Nat → PState → POut Expr
  | 0, _ => .fuelOut
  | n + 1, st =>
    let (m, st1) := matchT st [.BANG, .MINUS]
    if m then
      match pUnary n st1 with
      | .ok right st2 => .ok (.unary st1.previous right) st2
      | r => r
    else pCall n st
termination_by structural n0 _ => n0

def pFactorLoop : Nat → PState → Expr → POut Expr
  | 0, _, _ => .fuelOut
  | n + 1, st, e =>
    let (m, st1) := matchT st [.SLASH, .STAR]
    if m then
      match pUnary n st1 with
      | .ok right st2 => pFactorLoop n st2 (.binary e st1.previous right)
      | r => r
    else .ok e st
termination_by structural n0 _ _ => n0

/-- Mirror of `Parser::factor`. -/
def pFactor : Nat → PState → POut Expr
  | 0, _ => .fuelOut
  | n + 1, st =>
    match pUnary n st with
    | .ok e st1 => pFactorLoop n st1 e
    | r => r
termination_by structural n0 _ => n0

def pTermLoop : Nat → PState → Expr → POut Expr
  | 0, _, _ => .fuelOut
  | n + 1, st, e =>
    let (m, st1) := matchT st [.PLUS, .MINUS]
    if m then
      match pFactor n st1 with
      | .ok right st2 => pTermLoop n st2 (.binary e st1.previous right)
      | r => r
    else .ok e st
termination_by structural n0 _ _ => n0

/-- Mirror of `Parser::term`. -/
def pTerm : Nat → PState → POut Expr
  | 0, _ => .fuelOut
  | n + 1, st =>
    match pFactor n st with
    | .ok e st1 => pTermLoop n st1 e
    | r => r
termination_by structural n0 _ => n0

def pComparisonLoop : Nat → PState → Expr → POut Expr
  | 0, _, _ => .fuelOut
  | n + 1, st, e =>
    let (m, st1) := matchT st [.GREATER, .GREATER_EQUAL, .LESS, .LESS_EQUAL]
    if m then
      match pTerm n st1 with
      | .ok right st2 => pComparisonLoop n st2 (.binary e st1.previous right)
      | r => r
    else .ok e st
termination_by structural n0 _ _ => n0

/-- Mirror of `Parser::comparison`. -/
def pComparison : Nat → PState → POut Expr
  | 0, _ => .fuelOut
  | n + 1, st =>
    match pTerm n st with
    | .ok e st1 => pComparisonLoop n st1 e
    | r => r
termination_by structural n0 _ => n0

def pEqualityLoop : Nat → PState → Expr → POut Expr
  | 0, _, _ => .fuelOut
  | n + 1, st, e =>
    let (m, st1) := matchT st [.BANG_EQUAL, .EQUAL_EQUAL]
    if m then
      match pComparison n st1 with
      | .ok right st2 => pEqualityLoop n st2 (.binary e st1.previous right)
      | r => r
    else .ok e st
termination_by structural n0 _ _ => n0

/-- Mirror of `Parser::equality`. -/
def pEquality : Nat → PState → POut Expr
  | 0, _ => .fuelOut
  | n + 1, st =>
    match pComparison n st with
    | .ok e st1 => pEqualityLoop n st1 e
    | r => r
termination_by structural n0 _ => n0

def pAndLoop : Nat → PState → Expr → POut Expr
  | 0, _, _ => .fuelOut
  | n + 1, st, e =>
    let (m, st1) := matchT st [.AND]
    if m then
      match pEquality n st1 with
      | .ok right st2 => pAndLoop n st2 (.logical e st1.previous right)
      | r => r
    else .ok e st
termination_by structural n0 _ _ => n0

/-- Mirror of `Parser::and`. -/
def pAnd : Nat → PState → POut Expr
  | 0, _ => .fuelOut
  | n + 1, st =>
    match pEquality n st with
    | .ok e st1 => pAndLoop n st1 e
    | r => r
termination_by structural n0 _ => n0

def pOrLoop : Nat → PState → Expr → POut Expr
  | 0, _, _ => .fuelOut
  | n + 1, st, e =>
    let (m, st1) := matchT st [.OR]
    if m then
      match pAnd n st1 with
      | .ok right st2 => pOrLoop n st2 (.logical e st1.previous right)
      | r => r
    else .ok e st
termination_by structural n0 _ _ => n0

/-- Mirror of `Parser::or`. -/
def pOr : Nat → PState → POut Expr
  | 0, _ => .fuelOut
  | n + 1, st =>
    match pAnd n st with
    | .ok e st1 => pOrLoop n st1 e
    | r => r
termination_by structural n0 _ => n0

/-- Mirror of `Parser::assignment`. -/
def pAssignment : Nat → PState → POut Expr
  | 0, _ => .fuelOut
  | n + 1, st =>
    match pOr n st with
    | .ok e st1 =>
      let (m, st2) := matchT st1 [.EQUAL]
      if m then
        match pAssignment n st2 with
        | .ok value st3 =>
          match e with
          | .variable name _ => .ok (.assign name value none) st3
          | .get obj name => .ok (.set obj name value) st3
          | _ => .err (st3.report "Invalid assignment target")
        | r => r
      else .ok e st1
    | r => r
termination_by structural n0 _ => n0

/-- Mirror of `Parser::expression`. -/
def pExpression : Nat → PState → POut Expr
  | 0, _ => .fuelOut
  | n + 1, st => pAssignment n st
termination_by structural n0 _ => n0

/-- Mirror of `Parser::expression_statement`. -/
def pExpressionStatement : Nat → PState → POut Stmt
  | 0, _ => .fuelOut
  | n + 1, st =>
    match pExpression n st with
    | .ok e st1 =>
      match pConsume st1 .SEMICOLON "expected ';' after value" with
      | .ok _ st2 => .ok (.expression e) st2
      | .err st2 => .err st2
      | .panicked => .panicked
      | .fuelOut => .fuelOut
    | .err st1 => .err st1
    | .panicked => .panicked
    | .fuelOut => .fuelOut

/-- Mirror of `Parser::print_statement`. -/
def pPrintStatement : Nat → PState → POut Stmt
  | 0, _ => .fuelOut
  | n + 1, st =>
    match pExpression n st with
    | .ok e st1 =>
      match pConsume st1 .SEMICOLON "expected ';' after value" with
      | .ok _ st2 => .ok (.print e) st2
      | .err st2 => .err st2
      | .panicked => .panicked
      | .fuelOut => .fuelOut
    | .err st1 => .err st1
    | .panicked => .panicked
    | .fuelOut => .fuelOut

/-- Mirror of `Parser::if_statement`. -/
def pIfStatement : Nat → PState → POut Stmt
  | 0, _ => .fuelOut
  | n + 1, st =>
    match pConsume st .LEFT_PAREN "expected '(' after 'if'" with
    | .ok _ st1 =>
      match pExpression n st1 with
      | .ok cond st2 =>
        match pConsume st2 .RIGHT_PAREN "expected ')' after condition" with
        | .ok _ st3 =>
          match pStatement n st3 with
          | .ok thenS st4 =>
            let (m, st5) := matchT st4 [.ELSE]
            if m then
              match pStatement n st5 with
              | .ok elseS st6 => .ok (.ifStmt cond thenS (some elseS)) st6
              | r => r
            else .ok (.ifStmt cond thenS none) st5
          | r => r
        | .err st3 => .err st3
        | .panicked => .panicked
        | .fuelOut => .fuelOut
      | .err st2 => .err st2
      | .panicked => .panicked
      | .fuelOut => .fuelOut
    | .err st1 => .err st1
    | .panicked => .panicked
    | .fuelOut => .fuelOut
termination_by structural n0 _ => n0

/-- Mirror of `Parser::while_statement`. -/
def pWhileStatement : Nat → PState → POut Stmt
  | 0, _ => .fuelOut
  | n + 1, st =>
    match pConsume st .LEFT_PAREN "expected '(' after 'while'" with
    | .ok _ st1 =>
      match pExpression n st1 with
      | .ok cond st2 =>
        match pConsume st2 .RIGHT_PAREN "expected ')' after condition" with
        | .ok _ st3 =>
          match pStatement n st3 with
          | .ok body st4 => .ok (.whileStmt cond body) st4
          | r => r
        | .err st3 => .err st3
        | .panicked => .panicked
        | .fuelOut => .fuelOut
      | .err st2 => .err st2
      | .panicked => .panicked
      | .fuelOut => .fuelOut
    | .err st1 => .err st1
    | .panicked => .panicked
    | .fuelOut => .fuelOut
termination_by structural n0 _ => n0

/-- The initializer clause of `Parser::for_statement`: `;` gives none, `var`
a var declaration, otherwise an expression statement. -/
def pForInitClause : Nat → PState → POut (Option Stmt)
  | 0, _ => .fuelOut
  | n + 1, st =>
    let (m, st1) := matchT st [.SEMICOLON]
    if m then POut.ok none st1
    else
      let (mv, st1) := matchT st [.VAR]
      if mv then
        match pVarDeclaration n st1 with
        | .ok s st2 => POut.ok (some s) st2
        | .err st2 => .err st2
        | .panicked => .panicked
        | .fuelOut => .fuelOut
      else
        match pExpressionStatement n st with
        | .ok s st2 => POut.ok (some s) st2
        | .err st2 => .err st2
        | .panicked => .panicked
        | .fuelOut => .fuelOut

/-- The condition clause of `Parser::for_statement`: defaults to the literal
`true` when absent. -/
def pForCondClause : Nat → PState → POut Expr
  | 0, _ => .fuelOut
  | n + 1, st =>
    if ! st.check .SEMICOLON then pExpression n st
    else POut.ok (Expr.literal (.boolean true)) st

/-- The increment clause of `Parser::for_statement`: omitted when absent. -/
def pForIncClause : Nat → PState → POut (Option Expr)
  | 0, _ => .fuelOut
  | n + 1, st =>
    if ! st.check .RIGHT_PAREN then
      match pExpression n st with
      | .ok e st1 => POut.ok (some e) st1
      | .err st1 => .err st1
      | .panicked => .panicked
      | .fuelOut => .fuelOut
    else POut.ok none st

/-- Mirror of `Parser::for_statement` (lines 289-325): parse the clauses,
then desugar into while/blocks exactly as the Rust code builds them (lines
311-324). -/
def pForStatement : Nat → PState → POut Stmt
  | 0, _ => .fuelOut
  | n + 1, st =>
    match pConsume st .LEFT_PAREN "expected '(' after 'for'" with
    | .ok _ st1 =>
      match pForInitClause n st1 with
      | .ok initializer st2 =>
        match pForCondClause n st2 with
        | .ok cond st3 =>
          match pConsume st3 .SEMICOLON "expected ';' after loop condition" with
          | .ok _ st4 =>
            match pForIncClause n st4 with
            | .ok increment st5 =>
              match pConsume st5 .RIGHT_PAREN "expected ')' after for clauses" with
              | .ok _ st6 =>
                match pStatement n st6 with
                | .ok body st7 =>
                  let block :=
                    match increment with
                    | some increment => Stmt.block [body, .expression increment]
                    | none => Stmt.block [body]
                  let block := Stmt.whileStmt cond block
                  let block :=
                    match initializer with
                    | some initializer => Stmt.block [initializer, block]
                    | none => block
                  .ok block st7
                | r => r
              | .err st6 => .err st6
              | .panicked => .panicked
              | .fuelOut => .fuelOut
            | .err st5 => .err st5
            | .panicked => .panicked
            | .fuelOut => .fuelOut
          | .err st4 => .err st4
          | .panicked => .panicked
          | .fuelOut => .fuelOut
        | .err st3 => .err st3
        | .panicked => .panicked
        | .fuelOut => .fuelOut
      | .err st2 => .err st2
      | .panicked => .panicked
      | .fuelOut => .fuelOut
    | .err st1 => .err st1
    | .panicked => .panicked
    | .fuelOut => .fuelOut
termination_by structural n0 _ => n0

/-- Mirror of `Parser::return_statement` (the `return` keyword was consumed
by `statement`, so it is `previous`). -/
def pReturnStatement : Nat → PState → POut Stmt
  | 0, _ => .fuelOut
  | n + 1, st =>
    let keyword := st.previous
    match
      (if ! st.check .SEMICOLON then
         match pExpression n st with
         | .ok e st1 => POut.ok (some e) st1
         | .err st1 => .err st1
         | .panicked => .panicked
         | .fuelOut => .fuelOut
       else POut.ok (none : Option Expr) st) with
    | .ok value st1 =>
      match pConsume st1 .SEMICOLON "expected ';' after return value" with
      | .ok _ st2 => .ok (.ret keyword value) st2
      | .err st2 => .err st2
      | .panicked => .panicked
      | .fuelOut => .fuelOut
    | .err st1 => .err st1
    | .panicked => .panicked
    | .fuelOut => .fuelOut

/-- Mirror of `Parser::statement`. -/
def pStatement : Nat → PState → POut Stmt
  | 0, _ => .fuelOut
  | n + 1, st =>
    let (m, st1) := matchT st [.PRINT]
    if m then pPrintStatement n st1 else
    let (m, st1) := matchT st [.LEFT_BRACE]
    if m then
      match pBlock n st1 with
      | .ok stmts st2 => .ok (.block stmts) st2
      | .err st2 => .err st2
      | .panicked => .panicked
      | .fuelOut => .fuelOut
    else
    let (m, st1) := matchT st [.IF]
    if m then pIfStatement n st1 else
    let (m, st1) := matchT st [.WHILE]
    if m then pWhileStatement n st1 else
    let (m, st1) := matchT st [.FOR]
    if m then pForStatement n st1 else
    let (m, st1) := matchT st [.RETURN]
    if m then pReturnStatement n st1 else
    pExpressionStatement n st
termination_by structural n0 _ => n0

/-- Mirror of `Parser::var_declaration`. -/
def pVarDeclaration : Nat → PState → POut Stmt
  | 0, _ => .fuelOut
  | n + 1, st =>
    match pConsume st .IDENTIFIER "expected variable name" with
    | .ok name st1 =>
      match
        (let (m, st2) := matchT st1 [.EQUAL]
         if m then
           match pExpression n st2 with
           | .ok e st3 => POut.ok (some e) st3
           | .err st3 => .err st3
           | .panicked => .panicked
           | .fuelOut => .fuelOut
         else POut.ok (none : Option Expr) st1) with
      | .ok initializer st2 =>
        match pConsume st2 .SEMICOLON "expected ';' after variable declaration" with
        | .ok _ st3 => .ok (.var name initializer) st3
        | .err st3 => .err st3
        | .panicked => .panicked
        | .fuelOut => .fuelOut
      | .err st2 => .err st2
      | .panicked => .panicked
      | .fuelOut => .fuelOut
    | .err st1 => .err st1
    | .panicked => .panicked
    | .fuelOut => .fuelOut

/-- The parameter loop of `Parser::function`: at 255 accumulated parameters
the parser reports the limit and fails with `ParserError`. -/
def pParamsLoop : Nat → PState → List Token → POut (List Token)
  | 0, _, _ => .fuelOut
  | n + 1, st, params =>
    if params.length ≥ 255 then
      .err (st.report "Cannot have more than 255 parameters")
    else
      match pConsume st .IDENTIFIER "expected parameter name" with
      | .ok p st1 =>
        let params' := params ++ [p]
        let (m, st2) := matchT st1 [.COMMA]
        if m then pParamsLoop n st2 params' else .ok params' st2
      | .err st1 => .err st1
      | .panicked => .panicked
      | .fuelOut => .fuelOut
termination_by structural n0 _ _ => n0

/-- Mirror of `Parser::function`. -/
def pFunction : Nat → PState → String → POut Stmt
  | 0, _, _ => .fuelOut
  | n + 1, st, kind =>
    match pConsume st .IDENTIFIER ("expected " ++ kind ++ " name") with
    | .ok name st1 =>
      match pConsume st1 .LEFT_PAREN ("expected '(' after " ++ kind) with
      | .ok _ st2 =>
        match
          (if ! st2.check .RIGHT_PAREN then pParamsLoop n st2 []
           else POut.ok ([] : List Token) st2) with
        | .ok params st3 =>
          match pConsume st3 .RIGHT_PAREN "expected ')' after parameters" with
          | .ok _ st4 =>
            match pConsume st4 .LEFT_BRACE
                ("expected '\x7b' before " ++ kind ++ " body") with
            | .ok _ st5 =>
              match pBlock n st5 with
              | .ok body st6 => .ok (.function (.mk name params body)) st6
              | .err st6 => .err st6
              | .panicked => .panicked
              | .fuelOut => .fuelOut
            | .err st5 => .err st5
            | .panicked => .panicked
            | .fuelOut => .fuelOut
          | .err st4 => .err st4
          | .panicked => .panicked
          | .fuelOut => .fuelOut
        | .err st3 => .err st3
        | .panicked => .panicked
        | .fuelOut => .fuelOut
      | .err st2 => .err st2
      | .panicked => .panicked
      | .fuelOut => .fuelOut
    | .err st1 => .err st1
    | .panicked => .panicked
    | .fuelOut => .fuelOut
termination_by structural n0 _ _ => n0

/-- The method loop of `Parser::class_declaration`; a non-function result
from `function` is `unreachable!()`. -/
def pMethodsLoop : Nat → PState → List FnStmt → POut (List FnStmt)
  | 0, _, _ => .fuelOut
  | n + 1, st, methods =>
    if ! st.check .RIGHT_BRACE && ! st.is_at_end then
      match pFunction n st "method" with
      | .ok (.function f) st1 => pMethodsLoop n st1 (methods ++ [f])
      | .ok _ _ => .panicked
      | .err st1 => .err st1
      | .panicked => .panicked
      | .fuelOut => .fuelOut
    else .ok methods st
termination_by structural n0 _ _ => n0

/-- Mirror of `Parser::class_declaration`. -/
def pClassDeclaration : Nat → PState → POut Stmt
  | 0, _ => .fuelOut
  | n + 1, st =>
    match pConsume st .IDENTIFIER "Expect class name" with
    | .ok name st1 =>
      match
        (let (m, st2) := matchT st1 [.LESS]
         if m then
           match pConsume st2 .IDENTIFIER "Expect superclass name." with
           | .ok _ st3 => POut.ok (some (Expr.variable st3.previous none)) st3
           | .err st3 => .err st3
           | .panicked => .panicked
           | .fuelOut => .fuelOut
         else POut.ok (none : Option Expr) st1) with
      | .ok superclass st2 =>
        match pConsume st2 .LEFT_BRACE "Expect '\x7b' before class body" with
        | .ok _ st3 =>
          match pMethodsLoop n st3 [] with
          | .ok methods st4 =>
            match pConsume st4 .RIGHT_BRACE "Expect '\x7d' after class body" with
            | .ok _ st5 => .ok (.classStmt (.mk name methods superclass)) st5
            | .err st5 => .err st5
            | .panicked => .panicked
            | .fuelOut => .fuelOut
          | .err st4 => .err st4
          | .panicked => .panicked
          | .fuelOut => .fuelOut
        | .err st3 => .err st3
        | .panicked => .panicked
        | .fuelOut => .fuelOut
      | .err st2 => .err st2
      | .panicked => .panicked
      | .fuelOut => .fuelOut
    | .err st1 => .err st1
    | .panicked => .panicked
    | .fuelOut => .fuelOut
termination_by structural n0 _ => n0

/-- The inner dispatch of `Parser::declaration` (the `match` on the peeked
token before recovery). -/
def pDeclarationInner : Nat → PState → POut Stmt
  | 0, _ => .fuelOut
  | n + 1, st =>
    match st.peek.tokenType with
    | .VAR => pVarDeclaration n st.advance
    | .FUN => pFunction n st.advance "function"
    | .CLASS => pClassDeclaration n st.advance
    | _ => pStatement n st
termination_by structural n0 _ => n0

/-- Mirror of `Parser::declaration`: on a parse error, synchronize and yield
a gap (`none`). -/
def pDeclaration : Nat → PState → POut (Option Stmt)
  | 0, _ => .fuelOut
  | n + 1, st =>
    match pDeclarationInner n st with
    | .ok s st1 => .ok (some s) st1
    | .err st1 => .ok none (synchronize st1)
    | .panicked => .panicked
    | .fuelOut => .fuelOut
termination_by structural n0 _ => n0

/-- The loop of `Parser::block`: `stmts.push(self.declaration().unwrap())` —
the `unwrap` of a `None` recovery result is a panic. -/
def pBlockLoop : Nat → PState → List Stmt → POut (List Stmt)
  | 0, _, _ => .fuelOut
  | n + 1, st, stmts =>
    if ! st.check .RIGHT_BRACE && ! st.is_at_end then
      match pDeclaration n st with
      | .ok (some s) st1 => pBlockLoop n st1 (stmts ++ [s])
      | .ok none _ => .panicked
      | .err st1 => .err st1
      | .panicked => .panicked
      | .fuelOut => .fuelOut
    else
      match pConsume st .RIGHT_BRACE "expected '\x7d' after block" with
      | .ok _ st1 => .ok stmts st1
      | .err st1 => .err st1
      | .panicked => .panicked
      | .fuelOut => .fuelOut
termination_by structural n0 _ _ => n0

/-- Mirror of `Parser::block`. -/
def pBlock : Nat → PState → POut (List Stmt)
  | 0, _ => .fuelOut
  | n + 1, st => pBlockLoop n st []
termination_by structural n0 _ => n0

/-- The loop of `Parser::parse`: collect declaration results (gaps included)
until EOF. -/
def pParseLoop : Nat → PState → List (Option Stmt) → POut (List (Option Stmt))
  | 0, _, _ => .fuelOut
  | n + 1, st, acc =>
    if st.is_at_end then .ok acc st
    else
      match pDeclaration n st with
      | .ok o st1 => pParseLoop n st1 (acc ++ [o])
      | .err st1 => .err st1
      | .panicked => .panicked
      | .fuelOut => .fuelOut
termination_by structural n0 _ _ => n0

end

/-- Mirror of `Parser::parse`. -/
def pParse (n : Nat) (st : PState) : POut (List (Option Stmt)) :=
  pParseLoop n st []

/-- The parser state for a fresh `Parser::new(tokens)`. -/
def pInit (tokens : List Token) : PState := ⟨tokens, 0, []⟩

/-! ## Spec-side for-desugaring (for the refinement claim C4) -/

/-- The desugaring exactly as the spec words it: `for (I; C; S) B` becomes
`{ I; while (C) { B; S; } }` — the loop body is the block of `B` followed by
`S` when present, and the whole is wrapped in an enclosing block only when an
initializer is present. -/
def forDesugarSpec (i : Option Stmt) (c : Expr) (s : Option Expr) (b : Stmt) :
    Stmt :=
  let loopBody := Stmt.block ([b] ++ (match s with
    | some e => [Stmt.expression e]
    | none => []))
  let loop := Stmt.whileStmt c loopBody
  match i with
  | some ini => Stmt.block [ini, loop]
  | none => loop

/-- The `for` parser as the spec describes it: parse `( I ; C ; S ) B` with
`C` defaulting to the literal `true`, then emit the spec desugaring. -/
def pForStatementSpec : Nat → PState → POut Stmt
  | 0, _ => .fuelOut
  | n + 1, st =>
    match pConsume st .LEFT_PAREN "expected '(' after 'for'" with
    | .ok _ st1 =>
      match pForInitClause n st1 with
      | .ok initializer st2 =>
        match pForCondClause n st2 with
        | .ok cond st3 =>
          match pConsume st3 .SEMICOLON "expected ';' after loop condition" with
          | .ok _ st4 =>
            match pForIncClause n st4 with
            | .ok increment st5 =>
              match pConsume st5 .RIGHT_PAREN "expected ')' after for clauses" with
              | .ok _ st6 =>
                match pStatement n st6 with
                | .ok body st7 =>
                  .ok (forDesugarSpec initializer cond increment body) st7
                | r => r
              | .err st6 => .err st6
              | .panicked => .panicked
              | .fuelOut => .fuelOut
            | .err st5 => .err st5
            | .panicked => .panicked
            | .fuelOut => .fuelOut
          | .err st4 => .err st4
          | .panicked => .panicked
          | .fuelOut => .fuelOut
        | .err st3 => .err st3
        | .panicked => .panicked
        | .fuelOut => .fuelOut
      | .err st2 => .err st2
      | .panicked => .panicked
      | .fuelOut => .fuelOut
    | .err st1 => .err st1
    | .panicked => .panicked
    | .fuelOut => .fuelOut

/-! ## The process entry point (`src/main.rs`) -/

/-- What `main` dispatches to, by `env::args().len()` (argv\[0\] included):
one argument runs the REPL, two runs the named file, anything else prints
the usage line `"{prog} [script]"` (via `println!`, to stdout). -/
inductive MainAction where
  | run_prompt
  | run_file (path : String)
  | usage (prog : String)
  deriving DecidableEq, Repr

/-- Mirror of `main` from `src/main.rs`. -/
def main_dispatch (args : List String) : MainAction :=
  match args.length with
  | 1 => .run_prompt
  | 2 => .run_file (args.getD 1 "")
  | _ => .usage (args.getD 0 "")

/-- The process exit status of `main`: every arm of the `match` falls
through to the end of `fn main()`, which returns `()`, so the process exits
with status 0 — there is no `process::exit` or error return in any branch. -/
def main_exit_code (_ : List String) : Nat := 0

/-- Shorthand for payload-free tokens on line 1, used by concrete programs. -/
def tk (ty : TokenType) (lx : String) : Token := .mk ty lx none 1

/-! ## C4: for-statement desugaring -/

/-! ## C9: CLI dispatch with two or more extra arguments -/

/-! ## C5: `super` outside a subclass -/

/-- A program whose only statement mentions `super` at the top level. -/
def c5prog : List Stmt :=
  [.print (.superE (tk .SUPER "super") (tk .IDENTIFIER "m") none)]

/-! ## C8: short-circuit logical operators -/

/-! ## C6: panic-mode recovery -/

/-- Tokens of `{ var ; }`: a declaration that fails inside a block. -/
def c6toks : List Token :=
  [tk .LEFT_BRACE "\x7b", tk .VAR "var", tk .SEMICOLON ";", tk .RIGHT_BRACE "\x7d",
   tk .EOF ""]

/-- Tokens of `var ; print true ;`: a failing declaration at the top level
followed by a healthy one. -/
def c6toks2 : List Token :=
  [tk .VAR "var", tk .SEMICOLON ";", tk .PRINT "print", tk .TRUE "true",
   tk .SEMICOLON ";", tk .EOF ""]

/-- Tokens of `var ;` alone, used by the C6 witness. -/
def c6vartoks : List Token := [tk .VAR "var", tk .SEMICOLON ";", tk .EOF ""]

/-! ## C7: the 255-entry limit on argument and parameter lists -/

/-- 255 further `, a` parameter pairs. -/
def params256 : List Token :=
  (List.replicate 255 [tk .COMMA ",", tk .IDENTIFIER "a"]).flatten

/-- Tokens of `{ fun f(a, ... 256 ...) {} } print true ;` — a 256-parameter
function declaration inside a block, followed by another declaration. -/
def c7toksBlock : List Token :=
  [tk .LEFT_BRACE "\x7b", tk .FUN "fun", tk .IDENTIFIER "f", tk .LEFT_PAREN "(",
   tk .IDENTIFIER "a"] ++ params256 ++
  [tk .RIGHT_PAREN ")", tk .LEFT_BRACE "\x7b", tk .RIGHT_BRACE "\x7d",
   tk .RIGHT_BRACE "\x7d", tk .PRINT "print", tk .TRUE "true", tk .SEMICOLON ";",
   tk .EOF ""]

/-- Tokens of `fun f(a, ... 256 ...) {} print true ;` at the top level. -/
def c7toksTop : List Token :=
  [tk .FUN "fun", tk .IDENTIFIER "f", tk .LEFT_PAREN "(", tk .IDENTIFIER "a"] ++
  params256 ++
  [tk .RIGHT_PAREN ")", tk .LEFT_BRACE "\x7b", tk .RIGHT_BRACE "\x7d",
   tk .PRINT "print", tk .TRUE "true", tk .SEMICOLON ";", tk .EOF ""]

/-! ## C3: value equality -/

/-- Variant tag of a `Literal`, to state cross-type comparisons. -/
def Literal.tag : Literal → Nat
  | .number _ => 0
  | .str _ => 1
  | .boolean _ => 2
  | .callable _ => 3
  | .nil => 4
  | .inst _ => 5

def c3class : Class := .mk "Foo" [] none

/-- Two structurally identical but distinct instance records. -/
def c3heap : List InstRec :=
  [⟨c3class, [("a", .number (.num 1))]⟩, ⟨c3class, [("a", .number (.num 1))]⟩]

def c3decl : FnStmt := .mk (tk .IDENTIFIER "f") [] []

/-! ## C2: `init` returns the bound instance -/

/-- Body of `init(x) { this.x = x; return; }`. -/
def c2initBody : List Stmt :=
  [.expression (.set (.thisE (tk .THIS "this") none) (tk .IDENTIFIER "x")
      (.variable (tk .IDENTIFIER "x") none)),
   .ret (tk .RETURN "return") none]

def c2initM : FnStmt := .mk (tk .IDENTIFIER "init") [tk .IDENTIFIER "x"] c2initBody

/-- The program `class Foo { init(x) { this.x = x; return; } }
var foo = Foo(2); var bar = foo.init(1);`. -/
def c2prog : List Stmt :=
  [.classStmt (.mk (tk .IDENTIFIER "Foo") [c2initM] none),
   .var (tk .IDENTIFIER "foo") (some (.call (.variable (tk .IDENTIFIER "Foo") none)
      (tk .RIGHT_PAREN ")") [.literal (.number (.num 2))])),
   .var (tk .IDENTIFIER "bar") (some (.call
      (.get (.variable (tk .IDENTIFIER "foo") none) (tk .IDENTIFIER "init"))
      (tk .RIGHT_PAREN ")") [.literal (.number (.num 1))]))]

/-- The resolve-then-interpret pipeline of `runner::run` (the textual
front-end — tokenizer and parser — is bypassed: theorems feed ASTs
directly). -/
def runProgram (n : Nat) (stmts : List Stmt) :
    Option (InterpState × Option VisitorError) :=
  match resolveProgram n stmts with
  | .ok rp _ => some (interpret n initState rp)
  | _ => none

/-- Declaration, function value, and pre-call state for the C2 witness: an
initializer whose closure (address 1) binds `this` to instance 0. -/
def c2wDecl : FnStmt := .mk (tk .IDENTIFIER "init") [] [.ret (tk .RETURN "return") none]

def c2wFunc : Func := .mk c2wDecl 1 true

def c2wState : InterpState :=
  { envs := [⟨[], none⟩, ⟨[("this", Literal.inst 0)], some 0⟩],
    insts := [⟨Class.mk "W" [] none, []⟩], global := 0, environment := 0,
    output := [] }

/-- The state after the witness call: the call frame was pushed and the
current environment restored. -/
def c2wAfter : InterpState :=
  { envs := [⟨[], none⟩, ⟨[("this", Literal.inst 0)], some 0⟩, ⟨[], some 1⟩],
    insts := [⟨Class.mk "W" [] none, []⟩], global := 0, environment := 0,
    output := [] }

/-! ## C1: variable and `this` lookup -/

/-! # Theorems -/

/-! Characterization lemmas for the chain model. -/

namespace Environment

theorem get_eq_chainLookup : ∀ (env : Environment) (tok : Token),
    env.get tok = (match env.chainLookup tok.lexeme with
      | some v => Except.ok v
      | none => Except.error (.UndefinedVariable tok))
  | .mk vals none, tok => by
      simp only [get, chainLookup]
      cases alookup vals tok.lexeme <;> rfl
  | .mk vals (some e), tok => by
      have ih := get_eq_chainLookup e tok
      simp only [get, chainLookup]
      cases alookup vals tok.lexeme
      · rw [ih]; cases e.chainLookup tok.lexeme <;> rfl
      · rfl

theorem ancestor_err_iff : ∀ (env : Environment) (d : Nat) (e : EnvironmentError),
    (env.ancestor d = .error e ↔ (env.depth < d ∧ e = .InvalidEnvironmentDistance))
  | env, 0, e => by
      simp only [ancestor]
      constructor
      · intro h; cases h
      · intro ⟨h, _⟩; omega
  | .mk vals none, d + 1, e => by
      simp only [ancestor, depth]
      constructor
      · intro h; cases h; exact ⟨Nat.succ_pos d, rfl⟩
      · intro ⟨_, he⟩; rw [he]
  | .mk vals (some env'), d + 1, e => by
      have ih := ancestor_err_iff env' d e
      simp only [ancestor, depth]
      rw [ih]
      constructor
      · intro ⟨h1, h2⟩; exact ⟨by omega, h2⟩
      · intro ⟨h1, h2⟩; exact ⟨by omega, h2⟩

theorem ancestor_ok_of_le : ∀ (env : Environment) (d : Nat), d ≤ env.depth →
    ∃ anc, env.ancestor d = .ok anc
  | env, 0, _ => ⟨env, by simp only [ancestor]⟩
  | .mk vals (some env'), d + 1, h => by
      simp only [ancestor]
      exact ancestor_ok_of_le env' d (by simp only [depth] at h; omega)

theorem assign_eq_chainAssign : ∀ (env : Environment) (tok : Token) (v : Literal),
    env.assign tok v = (match env.chainAssign tok.lexeme v with
      | some e' => Except.ok e'
      | none => Except.error (.UndefinedVariable tok))
  | .mk vals none, tok, v => by
      simp only [assign, chainAssign]
      cases alookup vals tok.lexeme <;> rfl
  | .mk vals (some e), tok, v => by
      have ih := assign_eq_chainAssign e tok v
      simp only [assign, chainAssign]
      cases alookup vals tok.lexeme
      · rw [ih]; cases e.chainAssign tok.lexeme v <;> rfl
      · rfl

theorem get_at_eq : ∀ (env : Environment) (d : Nat) (tok : Token) (anc : Environment),
    env.ancestor d = .ok anc →
    env.get_at d tok = (match anc.chainLookup tok.lexeme with
      | some v => Except.ok v
      | none => Except.error (.UndefinedVariable tok)) := by
  intro env d tok anc h
  simp only [get_at, h]
  exact get_eq_chainLookup anc tok

theorem ancestor_err_of_lt : ∀ (env : Environment) (d : Nat), env.depth < d →
    env.ancestor d = .error .InvalidEnvironmentDistance
  | .mk vals none, d + 1, _ => rfl
  | .mk vals (some env'), d + 1, h => by
      simp only [ancestor]
      exact ancestor_err_of_lt env' d (by simp only [depth] at h; omega)

theorem get_at_invalid_iff (env : Environment) (d : Nat) (tok : Token) :
    env.get_at d tok = .error .InvalidEnvironmentDistance ↔ env.depth < d := by
  constructor
  · intro h
    by_contra hlt
    obtain ⟨anc, hanc⟩ := ancestor_ok_of_le env d (by omega)
    rw [get_at_eq env d tok anc hanc] at h
    cases hc : anc.chainLookup tok.lexeme <;> simp only [hc] at h <;> cases h
  · intro h
    simp only [get_at, ancestor_err_of_lt env d h]

theorem assign_at_eq : ∀ (env : Environment) (d : Nat) (tok : Token) (v : Literal),
    env.assign_at d tok v =
      (if env.depth < d then .error .InvalidEnvironmentDistance
       else match env.chainAssignAt d tok.lexeme v with
        | some e' => Except.ok e'
        | none => Except.error (.UndefinedVariable tok))
  | env, 0, tok, v => by
      simp only [assign_at, chainAssignAt, Nat.not_lt_zero, if_false]
      exact assign_eq_chainAssign env tok v
  | .mk vals none, d + 1, tok, v => by
      simp only [assign_at, chainAssignAt, depth]
      rw [if_pos (Nat.succ_pos d)]
  | .mk vals (some e), d + 1, tok, v => by
      have ih := assign_at_eq e d tok v
      simp only [assign_at, chainAssignAt, depth]
      by_cases hd : e.depth < d
      · rw [ih, if_pos hd, if_pos (by omega)]
      · rw [ih, if_neg hd, if_neg (by omega)]
        cases e.chainAssignAt d tok.lexeme v <;> rfl

theorem get_undefined_iff (env : Environment) (tok : Token) :
    env.get tok = .error (.UndefinedVariable tok) ↔
      env.chainLookup tok.lexeme = none := by
  rw [get_eq_chainLookup env tok]
  cases h : env.chainLookup tok.lexeme <;> simp

theorem ancestor_ok_depth (env : Environment) (d : Nat) (anc : Environment)
    (h : env.ancestor d = .ok anc) : ¬ env.depth < d := by
  intro hlt
  rw [ancestor_err_of_lt env d hlt] at h
  cases h

end Environment

/-- C10: `get_at`/`assign_at` are not restricted to the ancestor exactly `d`
hops up: after walking `d` ancestors the lookup continues outward, acting on
the binding of the nearest environment at distance at least `d` that defines
the name (`chainLookup`/`chainAssignAt` are that specification);
`InvalidEnvironmentDistance` occurs exactly when the chain has fewer than `d`
ancestors, and `UndefinedVariable` exactly when no environment from distance
`d` outward binds the name. -/
theorem claim_C10 (env : Environment) (d : Nat) (tok : Token) (v : Literal) :
    (∀ anc, env.ancestor d = .ok anc →
        env.get_at d tok = (match anc.chainLookup tok.lexeme with
          | some w => Except.ok w
          | none => Except.error (.UndefinedVariable tok)) ∧
        env.assign_at d tok v = (match env.chainAssignAt d tok.lexeme v with
          | some e' => Except.ok e'
          | none => Except.error (.UndefinedVariable tok)))
    ∧ (env.get_at d tok = .error .InvalidEnvironmentDistance ↔ env.depth < d)
    ∧ (env.assign_at d tok v = .error .InvalidEnvironmentDistance ↔
        env.depth < d) := by
  refine ⟨?_, Environment.get_at_invalid_iff env d tok, ?_⟩
  · intro anc hanc
    refine ⟨Environment.get_at_eq env d tok anc hanc, ?_⟩
    rw [Environment.assign_at_eq env d tok v,
      if_neg (Environment.ancestor_ok_depth env d anc hanc)]
  · rw [Environment.assign_at_eq env d tok v]
    by_cases hd : env.depth < d
    · rw [if_pos hd]; simp [hd]
    · rw [if_neg hd]
      cases env.chainAssignAt d tok.lexeme v <;> simp [hd]

/-- Witness for C10 at a concrete chain: `get_at 1` from the innermost
environment walks one hop and then continues outward to the binding of `a`
in the outermost environment, and `assign_at 1` rewrites that same binding. -/
theorem claim_C10_witness :
    c10env.get_at 1 c10tok = .ok Literal.nil ∧
    c10env.assign_at 1 c10tok (.boolean true) =
      .ok (.mk [] (some (.mk [] (some (.mk [("a", Literal.boolean true)] none))))) := by
  have h := (claim_C10 c10env 1 c10tok (.boolean true)).1 c10mid
    (by simp [c10env, c10mid, Environment.ancestor])
  refine ⟨?_, ?_⟩
  · rw [h.1]
    simp [c10mid, c10outer, c10tok, Environment.chainLookup, alookup,
      Token.lexeme]
  · rw [h.2]
    simp [c10env, c10mid, c10outer, c10tok, Environment.chainAssignAt,
      Environment.chainAssign, alookup, ainsert, Token.lexeme]

/-- C4: for every token stream and fuel, `for_statement` produces exactly the
spec's desugared AST `{ I; while (C) { B; S; } }`: the parser's for-statement
coincides with the spec-side parser that emits `forDesugarSpec` — the
condition defaults to the literal `true` when absent (inside
`pForCondClause`), the increment statement is omitted when absent, and the
enclosing block is added only when an initializer is present; equal ASTs
evaluate identically. -/
theorem claim_C4 : ∀ (n : Nat) (st : PState),
    pForStatement n st = pForStatementSpec n st := by
  intro n st
  cases n with
  | zero => rfl
  | succ n =>
    simp only [pForStatement, pForStatementSpec]
    split <;> try rfl
    split <;> try rfl
    split <;> try rfl
    split <;> try rfl
    split <;> try rfl
    split <;> try rfl
    split <;> try rfl
    simp only [forDesugarSpec]
    split <;> split <;> rfl

/-- C9 counterexample: with three argv entries the program does print the
usage line and runs no script, but `main` simply returns `()` in that arm,
so the process exit status is 0 — not non-zero as the claim states. -/
theorem claim_C9_counterexample :
    main_dispatch ["rlox", "a.lox", "extra"] = .usage "rlox" ∧
    main_exit_code ["rlox", "a.lox", "extra"] = 0 :=
  ⟨rfl, rfl⟩

/-- C9 as amended: with two or more command-line arguments beyond the program
name, `main` prints the usage line and runs no script (neither the REPL nor a
file), but exits with status 0, because the usage arm of the `match` falls
through and `main` returns `()`. -/
theorem claim_C9 : ∀ (args : List String), 3 ≤ args.length →
    main_dispatch args = .usage (args.getD 0 "") ∧ main_exit_code args = 0
  | _ :: _ :: _ :: _, _ => ⟨rfl, rfl⟩

/-- Witness for C9 at a concrete argv. -/
theorem claim_C9_witness :
    main_dispatch ["rlox", "x", "y"] = .usage "rlox" ∧
    main_exit_code ["rlox", "x", "y"] = 0 :=
  claim_C9 ["rlox", "x", "y"] (by decide)

/-- C5 counterexample: resolving a top-level use of `super` succeeds — no
resolution error is reported at all (there is no `InvalidSuper` check:
`visit_super` only calls `resolve_local`, and `ResolverError` has no such
variant), so execution is not aborted before the evaluator runs. -/
theorem claim_C5_counterexample :
    resolveProgram 10 c5prog = .ok c5prog ⟨[], .none, .none⟩ := rfl

/-- C5 as amended: the resolver performs no validity check on `super` —
`visit_super` only records a resolution distance and always succeeds, for any
resolver state — and a top-level use of `super` therefore passes resolution
and surfaces only at runtime, as the `InvalidEnvironmentDistance` environment
error (no distance was recorded). -/
theorem claim_C5 :
    (∀ (n : Nat) (st : RState) (keyword method : Token) (dist : Option Nat),
        resolveExpr (n + 1) st (.superE keyword method dist) =
          .ok (.superE keyword method (resolvedDist st keyword.lexeme dist)) st)
    ∧ interpret 10 initState c5prog =
        (initState, some (.Variable .InvalidEnvironmentDistance)) := by
  exact ⟨fun n st keyword method dist => rfl, rfl⟩

/-- C8: `or` returns the left value itself (not coerced) without evaluating
the right operand when the left is truthy, else evaluates and returns the
right; `and` symmetrically with falsy; and only `Nil` and `false` are falsy.
Freedom from right-operand effects is visible in the result state, which is
the state after the left operand alone. -/
theorem claim_C8 :
    (∀ (n : Nat) (st : InterpState) (lhs rhs : Expr) (op : Token) (v : Literal)
        (st1 : InterpState), evalExpr n st lhs = .ok v st1 →
      (op.tokenType = .OR →
        evalExpr (n + 1) st (.logical lhs op rhs) =
          (if v.is_truthy then .ok v st1 else evalExpr n st1 rhs)) ∧
      (op.tokenType = .AND →
        evalExpr (n + 1) st (.logical lhs op rhs) =
          (if v.is_truthy then evalExpr n st1 rhs else .ok v st1)))
    ∧ (∀ v : Literal, v.is_truthy = false ↔ (v = .nil ∨ v = .boolean false)) := by
  constructor
  · intro n st lhs rhs op v st1 h
    constructor
    · intro hop
      simp only [evalExpr, h, hop]
    · intro hop
      simp only [evalExpr, h, hop]
      cases hv : v.is_truthy <;> simp [hv]
  · intro v
    cases v <;> simp [Literal.is_truthy]

/-- Witness for C8: `false and nil` yields the left operand `false` itself
with no effect from the right, and `true or nil` yields `true`. -/
theorem claim_C8_witness :
    evalExpr 2 initState
        (.logical (.literal (.boolean false)) (tk .AND "and") (.literal .nil)) =
      .ok (.boolean false) initState ∧
    evalExpr 2 initState
        (.logical (.literal (.boolean true)) (tk .OR "or") (.literal .nil)) =
      .ok (.boolean true) initState := by
  constructor
  · have h := (claim_C8.1 1 initState (.literal (.boolean false)) (.literal .nil)
      (tk .AND "and") (.boolean false) initState rfl).2 rfl
    simpa using h
  · have h := (claim_C8.1 1 initState (.literal (.boolean true)) (.literal .nil)
      (tk .OR "or") (.boolean true) initState rfl).1 rfl
    simpa using h

/-- C6 counterexample: a declaration that fails to parse *inside a block*
does not leave a gap and continue — `Parser::block` calls
`self.declaration().unwrap()`, and the `None` recovery result makes the
whole parse panic on the program `{ var ; }`. -/
theorem claim_C6_counterexample : pParse 30 (pInit c6toks) = .panicked := rfl

/-- C6 as amended: at the `declaration` level a parse error is recovered by
discarding tokens to a statement boundary (`synchronize`) and yielding a gap
(`none`), and the top-level parse loop then continues with the next
declaration; concretely, `var ; print true ;` parses to a gap followed by
the print statement, with the error recorded. Inside a block, however, the
gap is `unwrap`ped and the parser panics (see the counterexample). -/
theorem claim_C6 :
    (∀ (n : Nat) (st st' : PState), pDeclarationInner n st = .err st' →
      pDeclaration (n + 1) st = .ok none (synchronize st'))
    ∧ (∀ (n : Nat) (st : PState) (acc : List (Option Stmt)) (o : Option Stmt)
        (st' : PState), st.is_at_end = false → pDeclaration n st = .ok o st' →
      pParseLoop (n + 1) st acc = pParseLoop n st' (acc ++ [o]))
    ∧ pParse 30 (pInit c6toks2) =
        .ok [none, some (.print (.literal (.boolean true)))]
          ⟨c6toks2, 5, ["expected variable name"]⟩ := by
  refine ⟨?_, ?_, rfl⟩
  · intro n st st' h
    simp only [pDeclaration, h]
  · intro n st acc o st' hend hdecl
    simp only [pParseLoop, hend, hdecl, Bool.false_eq_true, if_false]

/-- Witness for C6: both recovery facts applied at the tokens of `var ;`. -/
theorem claim_C6_witness :
    pDeclarationInner 10 (pInit c6vartoks) =
      .err ⟨c6vartoks, 1, ["expected variable name"]⟩ ∧
    pDeclaration 11 (pInit c6vartoks) =
      .ok none (synchronize ⟨c6vartoks, 1, ["expected variable name"]⟩) ∧
    (pInit c6toks2).is_at_end = false ∧
    pDeclaration 29 (pInit c6toks2) = .ok none ⟨c6toks2, 2, ["expected variable name"]⟩ ∧
    pParseLoop 30 (pInit c6toks2) [] =
      pParseLoop 29 ⟨c6toks2, 2, ["expected variable name"]⟩ [none] := by
  refine ⟨rfl, claim_C6.1 10 (pInit c6vartoks) _ rfl, rfl, rfl, ?_⟩
  exact claim_C6.2.1 29 (pInit c6toks2) [] none
    ⟨c6toks2, 2, ["expected variable name"]⟩ rfl rfl

set_option maxRecDepth 10000 in
/-- C7 counterexample: a parameter list reaching more than 255 entries inside
a block aborts the whole parse with a panic — the limit error makes the
declaration fail, recovery yields a gap, and `block`'s `unwrap` panics, so
the remaining declarations are *not* produced. -/
theorem claim_C7_counterexample : pParse 1000 (pInit c7toksBlock) = .panicked :=
  rfl

set_option maxRecDepth 10000 in
/-- C7 as amended: reaching 255 accumulated entries makes the argument and
parameter loops report the limit diagnostic and fail with `ParserError`
(aborting the current declaration, unlike jlox which keeps parsing the
list); at the top level the failure is then recovered into a gap and the
remaining declarations are still produced — concretely, a 256-parameter
function followed by `print true ;` parses to a gap plus the print
statement. Inside a block the same failure panics (see the counterexample). -/
theorem claim_C7 :
    (∀ (n : Nat) (st : PState) (args : List Expr), args.length ≥ 255 →
      pFinishCallLoop (n + 1) st args =
        .err (st.report "Cannot have more than 255 arguments"))
    ∧ (∀ (n : Nat) (st : PState) (params : List Token), params.length ≥ 255 →
      pParamsLoop (n + 1) st params =
        .err (st.report "Cannot have more than 255 parameters"))
    ∧ pParse 1000 (pInit c7toksTop) =
        .ok [none, some (.print (.literal (.boolean true)))]
          ⟨c7toksTop, 520, ["Cannot have more than 255 parameters"]⟩ := by
  refine ⟨?_, ?_, rfl⟩
  · intro n st args h
    simp only [pFinishCallLoop, if_pos h]
  · intro n st params h
    simp only [pParamsLoop, if_pos h]

/-- Witness for C7: the limit conjuncts applied at concrete 255-entry
lists. -/
theorem claim_C7_witness :
    (List.replicate 255 (Expr.literal Literal.nil)).length ≥ 255 ∧
    pFinishCallLoop 5 (pInit []) (List.replicate 255 (Expr.literal Literal.nil)) =
      .err ((pInit []).report "Cannot have more than 255 arguments") ∧
    (List.replicate 255 (tk .IDENTIFIER "a")).length ≥ 255 ∧
    pParamsLoop 5 (pInit []) (List.replicate 255 (tk .IDENTIFIER "a")) =
      .err ((pInit []).report "Cannot have more than 255 parameters") := by
  have hlen : ∀ {α : Type} (x : α), (List.replicate 255 x).length ≥ 255 := by
    intro α x
    rw [List.length_replicate]
  refine ⟨hlen _, ?_, hlen _, ?_⟩
  · exact claim_C7.1 4 (pInit []) _ (hlen _)
  · exact claim_C7.2.1 4 (pInit []) _ (hlen _)

/-- C3 counterexample: two structurally identical but *distinct* heap records
(addresses 0 and 1) compare equal — instance equality is the derived
structural `PartialEq` through the `Rc`, not identity; likewise two `Func`
values sharing a declaration but with different closures and
`is_initializer` flags compare equal, because `impl PartialEq for Func`
compares only `decl`. -/
theorem claim_C3_counterexample :
    eqLiteral c3heap 10 (.inst 0) (.inst 1) = some true ∧ (0 : Nat) ≠ 1 ∧
    eqLiteral c3heap 10 (.callable (.function (.mk c3decl 0 false)))
      (.callable (.function (.mk c3decl 1 true))) = some true :=
  ⟨rfl, by decide, rfl⟩

/-- C3 as amended: `==`/`!=` compare Nil=Nil as true; numbers by IEEE
comparison (NaN unequal to NaN, numeric values by value); strings by
content; booleans by value; every cross-variant comparison is false; user
functions by their declaration only (closure and `is_initializer` ignored);
and instances structurally through the heap records they point to (class and
field table), not by identity. -/
theorem claim_C3 :
    (∀ (h : List InstRec) (n : Nat), eqLiteral h (n + 1) .nil .nil = some true)
    ∧ (∀ (h : List InstRec) (n : Nat),
        eqLiteral h (n + 1) (.number .nan) (.number .nan) = some false)
    ∧ (∀ (h : List InstRec) (n : Nat) (q1 q2 : Rat),
        eqLiteral h (n + 1) (.number (.num q1)) (.number (.num q2)) =
          some (q1 == q2))
    ∧ (∀ (h : List InstRec) (n : Nat) (s1 s2 : String),
        eqLiteral h (n + 1) (.str s1) (.str s2) = some (s1 == s2))
    ∧ (∀ (h : List InstRec) (n : Nat) (b1 b2 : Bool),
        eqLiteral h (n + 1) (.boolean b1) (.boolean b2) = some (b1 == b2))
    ∧ (∀ (h : List InstRec) (n : Nat) (v1 v2 : Literal), v1.tag ≠ v2.tag →
        eqLiteral h (n + 1) v1 v2 = some false)
    ∧ (∀ (h : List InstRec) (n : Nat) (d1 d2 : FnStmt) (c1 c2 : Nat)
        (i1 i2 : Bool),
        eqFunc h (n + 1) (.mk d1 c1 i1) (.mk d2 c2 i2) = eqFnStmt h n d1 d2)
    ∧ (∀ (h : List InstRec) (n : Nat) (a b : Nat) (ra rb : InstRec),
        h[a]? = some ra → h[b]? = some rb →
        eqLiteral h (n + 1) (.inst a) (.inst b) = eqInstRec h n ra rb) := by
  refine ⟨fun h n => rfl, fun h n => rfl, fun h n q1 q2 => rfl,
    fun h n s1 s2 => rfl, fun h n b1 b2 => rfl, ?_, fun h n d1 d2 c1 c2 i1 i2 => rfl,
    ?_⟩
  · intro h n v1 v2 hne
    cases v1 <;> cases v2 <;> first
      | exact absurd rfl hne
      | rfl
  · intro h n a b ra rb ha hb
    simp only [eqLiteral, ha, hb]

/-- Witness for C3: the cross-type and instance conjuncts applied at concrete
values. -/
theorem claim_C3_witness :
    (Literal.nil.tag ≠ (Literal.boolean true).tag) ∧
    eqLiteral c3heap 4 Literal.nil (.boolean true) = some false ∧
    c3heap[0]? = some ⟨c3class, [("a", .number (.num 1))]⟩ ∧
    c3heap[1]? = some ⟨c3class, [("a", .number (.num 1))]⟩ ∧
    eqLiteral c3heap 4 (.inst 0) (.inst 1) =
      eqInstRec c3heap 3 ⟨c3class, [("a", .number (.num 1))]⟩
        ⟨c3class, [("a", .number (.num 1))]⟩ := by
  refine ⟨by decide, ?_, rfl, rfl, ?_⟩
  · exact claim_C3.2.2.2.2.2.1 c3heap 3 .nil (.boolean true) (by decide)
  · exact claim_C3.2.2.2.2.2.2.2 c3heap 3 0 1 _ _ rfl rfl

set_option maxHeartbeats 4000000 in
set_option maxRecDepth 10000 in
/-- C2: a successful call of a user function whose `is_initializer` flag is
set always returns exactly the value bound to `this` at distance 0 of the
function's closure — whether the body completed normally or exited through a
`ReturnValue` (bare `return;`), so never `Nil` from normal completion and
never a carried return value. In particular, constructing `Foo(2)` and later
calling `foo.init(1)` directly both return the same instance (heap address
0). -/
theorem claim_C2 :
    (∀ (n : Nat) (st : InterpState) (f : Func) (args : List Literal)
        (v : Literal) (st' : InterpState), f.is_initializer = true →
      callFunction (n + 1) st (.function f) args = .ok v st' →
      envGetAtH st' n f.closure 0 (thisTok f.decl.name.line) = some (.ok v))
    ∧ (∃ stf, runProgram 200 c2prog = some (stf, none) ∧
        envGetH stf 10 0 (tk .IDENTIFIER "foo") = some (.ok (.inst 0)) ∧
        envGetH stf 10 0 (tk .IDENTIFIER "bar") = some (.ok (.inst 0))) := by
  constructor
  · intro n st f args v st' hinit hcall
    obtain ⟨d, c, i⟩ := f
    simp only [Func.is_initializer] at hinit
    subst hinit
    simp only [callFunction, Func.decl, Func.closure, Func.is_initializer,
      if_true] at hcall ⊢
    split at hcall
    · split at hcall
      · cases hcall
        assumption
      · cases hcall
      · cases hcall
    · split at hcall
      · cases hcall
        assumption
      · cases hcall
      · cases hcall
    · cases hcall
  · exact ⟨_, rfl, rfl, rfl⟩

/-- Witness for C2: the bare-return initializer call returns instance 0, the
value bound to `this` at distance 0 of its closure. -/
theorem claim_C2_witness :
    c2wFunc.is_initializer = true ∧
    callFunction 10 c2wState (.function c2wFunc) [] = .ok (.inst 0) c2wAfter ∧
    envGetAtH c2wAfter 9 c2wFunc.closure 0 (thisTok c2wFunc.decl.name.line) =
      some (.ok (.inst 0)) :=
  ⟨rfl, rfl, claim_C2.1 9 c2wState c2wFunc [] (.inst 0) c2wAfter rfl rfl⟩

/-- C1: evaluating a variable reference or a `this` expression is exactly
`look_up_variable`: with a recorded distance `d` it fetches via `get_at d`
from the current environment, with no distance it looks the name up in the
global environment (both shown on the heap evaluator and on the pure chain
model), and a missing binding yields precisely the `UndefinedVariable`
error — for the global lookup when no environment of the global chain binds
the name, and for the distance lookup when no environment from the `d`-th
ancestor outward binds it. -/
theorem claim_C1 :
    (∀ (n : Nat) (st : InterpState) (name : Token) (dist : Option Nat),
        evalExpr (n + 1) st (.variable name dist) =
          look_up_variable_h n st dist name)
    ∧ (∀ (n : Nat) (st : InterpState) (keyword : Token) (dist : Option Nat),
        evalExpr (n + 1) st (.thisE keyword dist) =
          look_up_variable_h n st dist keyword)
    ∧ (∀ (cur glob : Environment) (d : Nat) (tok : Token),
        look_up_variable cur glob (some d) tok = cur.get_at d tok)
    ∧ (∀ (cur glob : Environment) (tok : Token),
        look_up_variable cur glob none tok = glob.get tok)
    ∧ (∀ (glob : Environment) (tok : Token),
        glob.get tok = .error (.UndefinedVariable tok) ↔
          glob.chainLookup tok.lexeme = none)
    ∧ (∀ (env : Environment) (d : Nat) (tok : Token) (anc : Environment),
        env.ancestor d = .ok anc →
        (env.get_at d tok = .error (.UndefinedVariable tok) ↔
          anc.chainLookup tok.lexeme = none)) := by
  refine ⟨fun n st name dist => rfl, fun n st keyword dist => rfl,
    fun cur glob d tok => rfl, fun cur glob tok => rfl,
    Environment.get_undefined_iff, ?_⟩
  intro env d tok anc h
  rw [Environment.get_at_eq env d tok anc h]
  cases anc.chainLookup tok.lexeme <;> simp

/-- Witness for C1 at concrete inputs: the global `clock` lookup, and an
unbound name `zz` at distance 1 of the concrete chain, which errors with
`UndefinedVariable` exactly because no environment from the first ancestor
outward binds it. -/
theorem claim_C1_witness :
    evalExpr 3 initState (.variable (tk .IDENTIFIER "clock") none) =
      look_up_variable_h 2 initState none (tk .IDENTIFIER "clock") ∧
    c10env.ancestor 1 = .ok c10mid ∧
    (c10env.get_at 1 (tk .IDENTIFIER "zz") =
        .error (.UndefinedVariable (tk .IDENTIFIER "zz")) ↔
      c10mid.chainLookup "zz" = none) ∧
    c10env.get_at 1 (tk .IDENTIFIER "zz") =
      .error (.UndefinedVariable (tk .IDENTIFIER "zz")) := by
  have hanc : c10env.ancestor 1 = .ok c10mid := by
    simp [c10env, c10mid, Environment.ancestor]
  have hiff := claim_C1.2.2.2.2.2 c10env 1 (tk .IDENTIFIER "zz") c10mid hanc
  exact ⟨claim_C1.1 2 initState (tk .IDENTIFIER "clock") none, hanc, hiff,
    hiff.mpr rfl⟩

end Rlox
